import Mathlib

/-!
Verification development for the pattern-based risk and diff-complexity
analysis engine of the pr-reviewer-action repository.

The definitions below are a shallow embedding of src/analyzers/risk.js and
src/analyzers/complexity.js.  JavaScript strings are modelled as Lean
strings (lists of characters), JavaScript numbers on the integer inputs of
this engine as Nat, JavaScript objects used as string-keyed maps as
association lists with in-place update, and the absent / non-string values
that the code checks for are modelled by dedicated sum types.  The glob
matcher (the minimatch library) is not part of the repository sources, so
it is modelled from the specification; everything else is translated from
the JavaScript source.
-/

/-- Pattern value handed to the glob matcher: either a string or some
non-string JavaScript value (object, number, ...). -/
inductive Pat
| str (s : String)
| nonstring
deriving DecidableEq

/-- ChangedFile record as supplied by the caller (filename, status,
additions, deletions). -/
structure ChangedFile where
  filename : String
  status : String
  additions : Nat
  deletions : Nat
deriving DecidableEq

/-- Risk rule shape used internally by analyzeRisk after normalisation:
pattern, category, severity, message. -/
structure RiskRule where
  pattern : Pat
  category : String
  severity : String
  message : String
deriving DecidableEq

/-- Caller-supplied custom pattern entry: either a bare string or an object
with optional fields, where a missing field is None (modelling a falsy
JavaScript field). -/
inductive CustomPattern
| str (s : String)
| obj (pattern : Option Pat) (category : Option String) (severity : Option String)
      (message : Option String)
deriving DecidableEq

/-- Token of one segment of the modelled glob language. -/
inductive GlobTok
| lit (c : Char)
| star
| cls (cs : List Char)
deriving DecidableEq

/-- Split of a character list at a separator character, in the manner of
the JavaScript split on a one-character separator. -/
def splitOnChar (sep : Char) (s : List Char) : List (List Char) :=
  s.foldr
    (fun c acc =>
      match acc with
      | [] => [[c]]
      | h :: t => if c = sep then [] :: h :: t else (c :: h) :: t)
    [[]]

/-- Modelled from the spec: single-pass compilation of one path segment of
a glob pattern of the Glob Matcher (the minimatch library, whose
implementation is not in the repository sources): the single-segment
wildcard, character classes in square brackets, and literal characters.
The first argument carries the accumulated body of an open character
class; compilation of a malformed segment (an unclosed character class)
fails, returning none. -/
def parseSegGo : Option (List Char) → List Char → Option (List GlobTok)
| none, [] => some []
| some _, [] => none
| none, '*' :: rest => (parseSegGo none rest).map (fun ts => GlobTok.star :: ts)
| none, '[' :: rest => parseSegGo (some []) rest
| none, c :: rest => (parseSegGo none rest).map (fun ts => GlobTok.lit c :: ts)
| some acc, ']' :: rest => (parseSegGo none rest).map (fun ts => GlobTok.cls acc.reverse :: ts)
| some acc, c :: rest => parseSegGo (some (c :: acc)) rest

/-- Modelled from the spec: compilation of one path segment, starting
outside any character class. -/
def parseSegGlob (l : List Char) : Option (List GlobTok) := parseSegGo none l

/-- Pattern for one path segment: either the multi-segment wildcard
(standing for zero or more whole directory segments) or an ordinary
segment. -/
inductive SegPat
| dstar
| seg (toks : List GlobTok)
deriving DecidableEq

/-- Modelled from the spec: compilation of the slash-separated segments of
a glob pattern; a lone double star becomes the multi-segment wildcard. -/
def parseSegs : List (List Char) → Option (List SegPat)
| [] => some []
| s :: rest =>
  match (if s = ['*', '*'] then some SegPat.dstar
         else (parseSegGlob s).map SegPat.seg),
        parseSegs rest with
  | some a, some b => some (a :: b)
  | _, _ => none

/-- Modelled from the spec: compilation of a whole glob pattern. -/
def parseGlob (l : List Char) : Option (List SegPat) :=
  parseSegs (splitOnChar '/' l)

/-- Modelled from the spec: matching of one compiled segment against the
characters of one path segment; the single-segment wildcard matches any
run of characters inside the segment.  The fuel argument only bounds the
recursion depth; every step shrinks the combined length of the two lists,
so the fuel chosen by segMatch is never exhausted. -/
def segMatchF : Nat → List GlobTok → List Char → Bool
| 0, _, _ => false
| _ + 1, [], [] => true
| _ + 1, [], _ :: _ => false
| _ + 1, GlobTok.lit _ :: _, [] => false
| fuel + 1, GlobTok.lit c :: ts, x :: s => c == x && segMatchF fuel ts s
| _ + 1, GlobTok.cls _ :: _, [] => false
| fuel + 1, GlobTok.cls cs :: ts, x :: s => cs.contains x && segMatchF fuel ts s
| fuel + 1, GlobTok.star :: ts, [] => segMatchF fuel ts []
| fuel + 1, GlobTok.star :: ts, x :: s =>
    segMatchF fuel ts (x :: s) || segMatchF fuel (GlobTok.star :: ts) s

/-- Modelled from the spec: matching of one compiled segment with
sufficient fuel. -/
def segMatch (ts : List GlobTok) (s : List Char) : Bool :=
  segMatchF (ts.length + s.length + 1) ts s

/-- Modelled from the spec: matching of a compiled segment-pattern list
against the segments of a path; the multi-segment wildcard matches zero or
more whole segments.  The fuel argument only bounds the recursion depth;
every step shrinks the combined length of the two lists, so the fuel
chosen by segsMatch is never exhausted. -/
def segsMatchF : Nat → List SegPat → List (List Char) → Bool
| 0, _, _ => false
| _ + 1, [], [] => true
| _ + 1, [], _ :: _ => false
| fuel + 1, SegPat.dstar :: ps, [] => segsMatchF fuel ps []
| fuel + 1, SegPat.dstar :: ps, s :: rest =>
    segsMatchF fuel ps (s :: rest) || segsMatchF fuel (SegPat.dstar :: ps) rest
| _ + 1, SegPat.seg _ :: _, [] => false
| fuel + 1, SegPat.seg t :: ps, s :: rest => segMatch t s && segsMatchF fuel ps rest

/-- Modelled from the spec: matching of a compiled segment-pattern list
with sufficient fuel. -/
def segsMatch (ps : List SegPat) (segs : List (List Char)) : Bool :=
  segsMatchF (ps.length + segs.length + 1) ps segs

/-- Modelled from the spec: the glob matcher evaluates a filename against a
pattern; it is a pure total function, and a malformed or non-string pattern
matches nothing instead of raising an error. -/
def minimatch (filename : String) (p : Pat) : Bool :=
  match p with
  | Pat.nonstring => false
  | Pat.str pat =>
    match parseGlob pat.data with
    | none => false
    | some ps => segsMatch ps (splitOnChar '/' filename.data)

/-- Predicate for pattern values on which glob compilation fails: a
non-string value or a string with an unclosed character class. -/
def malformedPat : Pat → Bool
| Pat.nonstring => true
| Pat.str s => (parseGlob s.data).isNone

/-- DEFAULT_RISK_PATTERNS table of risk.js, in source order. -/
def DEFAULT_RISK_PATTERNS : List RiskRule := [
  { pattern := Pat.str ("**/.env*"), category := "security", severity := "high", message := "Environment configuration file" },
  { pattern := Pat.str ("**/secrets*"), category := "security", severity := "high", message := "Secrets file" },
  { pattern := Pat.str ("**/*credentials*"), category := "security", severity := "high", message := "Credentials file" },
  { pattern := Pat.str ("**/*password*"), category := "security", severity := "high", message := "Password-related file" },
  { pattern := Pat.str ("**/*.pem"), category := "security", severity := "high", message := "Private key file" },
  { pattern := Pat.str ("**/*.key"), category := "security", severity := "high", message := "Key file" },
  { pattern := Pat.str ("**/auth/**"), category := "security", severity := "high", message := "Authentication code" },
  { pattern := Pat.str ("**/security/**"), category := "security", severity := "high", message := "Security module" },
  { pattern := Pat.str ("**/migrations/**"), category := "database", severity := "high", message := "Database migration" },
  { pattern := Pat.str ("**/migrate/**"), category := "database", severity := "high", message := "Database migration" },
  { pattern := Pat.str ("**/*.sql"), category := "database", severity := "medium", message := "SQL file" },
  { pattern := Pat.str ("**/schema*"), category := "database", severity := "high", message := "Database schema" },
  { pattern := Pat.str ("**/config/**"), category := "config", severity := "medium", message := "Configuration file" },
  { pattern := Pat.str ("**/*.config.js"), category := "config", severity := "medium", message := "Configuration file" },
  { pattern := Pat.str ("**/*.config.ts"), category := "config", severity := "medium", message := "Configuration file" },
  { pattern := Pat.str ("**/settings.*"), category := "config", severity := "medium", message := "Settings file" },
  { pattern := Pat.str ("**/docker-compose*"), category := "config", severity := "medium", message := "Docker Compose configuration" },
  { pattern := Pat.str ("**/Dockerfile*"), category := "config", severity := "medium", message := "Dockerfile" },
  { pattern := Pat.str ("**/nginx*"), category := "config", severity := "medium", message := "Nginx configuration" },
  { pattern := Pat.str ("**/.github/workflows/**"), category := "ci", severity := "medium", message := "CI/CD workflow" },
  { pattern := Pat.str ("**/*.tf"), category := "infrastructure", severity := "high", message := "Terraform configuration" },
  { pattern := Pat.str ("**/*.tfvars"), category := "infrastructure", severity := "high", message := "Terraform variables" },
  { pattern := Pat.str ("**/cloudformation/**"), category := "infrastructure", severity := "high", message := "CloudFormation template" },
  { pattern := Pat.str ("**/k8s/**"), category := "infrastructure", severity := "high", message := "Kubernetes configuration" },
  { pattern := Pat.str ("**/kubernetes/**"), category := "infrastructure", severity := "high", message := "Kubernetes configuration" },
  { pattern := Pat.str ("**/helm/**"), category := "infrastructure", severity := "high", message := "Helm chart" },
  { pattern := Pat.str ("**/package.json"), category := "dependencies", severity := "medium", message := "Node.js dependencies" },
  { pattern := Pat.str ("**/package-lock.json"), category := "dependencies", severity := "low", message := "Node.js lockfile" },
  { pattern := Pat.str ("**/yarn.lock"), category := "dependencies", severity := "low", message := "Yarn lockfile" },
  { pattern := Pat.str ("**/requirements.txt"), category := "dependencies", severity := "medium", message := "Python dependencies" },
  { pattern := Pat.str ("**/Gemfile"), category := "dependencies", severity := "medium", message := "Ruby dependencies" },
  { pattern := Pat.str ("**/go.mod"), category := "dependencies", severity := "medium", message := "Go dependencies" },
  { pattern := Pat.str ("**/Cargo.toml"), category := "dependencies", severity := "medium", message := "Rust dependencies" },
  { pattern := Pat.str ("**/routes/**"), category := "api", severity := "medium", message := "API routes" },
  { pattern := Pat.str ("**/api/**"), category := "api", severity := "medium", message := "API code" },
  { pattern := Pat.str ("**/middleware/**"), category := "api", severity := "medium", message := "Middleware" },
  { pattern := Pat.str ("**/webpack*"), category := "build", severity := "medium", message := "Webpack configuration" },
  { pattern := Pat.str ("**/rollup*"), category := "build", severity := "medium", message := "Rollup configuration" },
  { pattern := Pat.str ("**/vite.config*"), category := "build", severity := "medium", message := "Vite configuration" },
  { pattern := Pat.str ("**/.gitlab-ci*"), category := "ci", severity := "medium", message := "GitLab CI configuration" },
  { pattern := Pat.str ("**/Jenkinsfile"), category := "ci", severity := "medium", message := "Jenkins pipeline" }
]

/-- Lookup in the severityOrder table of getHighestSeverity; an
unrecognised severity string yields none, modelling a JavaScript undefined
property access. -/
def severityOrder (s : String) : Option Nat :=
  if s = "high" then some 3
  else if s = "medium" then some 2
  else if s = "low" then some 1
  else none

/-- JavaScript strict greater-than on possibly-undefined numbers: any
comparison involving undefined is false. -/
def jsGt : Option Nat → Option Nat → Bool
| some a, some b => b < a
| _, _ => false

/-- Body of the getHighestSeverity loop: replace the running highest
severity when the rank of the rule's severity is strictly greater. -/
def sevFoldStep (highest : String) (p : RiskRule) : String :=
  if jsGt (severityOrder p.severity) (severityOrder highest) then p.severity
  else highest

/-- Translation of getHighestSeverity: fold over the matched rules keeping
the running maximum by severity rank, starting from low. -/
def getHighestSeverity (patterns : List RiskRule) : String :=
  patterns.foldl sevFoldStep "low"

/-- Translation of getCategoryIcon (the icon strings are copied byte-for-byte
from the source file). -/
def getCategoryIcon (category : String) : String :=
  if category = "security" then "ğŸ”’"
  else if category = "database" then "ğŸ—„ï¸"
  else if category = "config" then "âš™ï¸"
  else if category = "infrastructure" then "ğŸ—ï¸"
  else if category = "dependencies" then "ğŸ“¦"
  else if category = "api" then "ğŸŒ"
  else if category = "build" then "ğŸ”§"
  else if category = "ci" then "ğŸ”„"
  else if category = "custom" then "ğŸ·ï¸"
  else "ğŸ“‹"

/-- Resolution of the pattern field of a custom rule, modelling the
JavaScript expression (p.pattern or else p): a missing or falsy pattern
field falls back to the whole entry, which for an object entry is a
non-string value. -/
def resolvePattern : Option Pat → Pat
| none => Pat.nonstring
| some (Pat.str s) => if s = "" then Pat.nonstring else Pat.str s
| some Pat.nonstring => Pat.nonstring

/-- Normalisation of one caller-supplied custom pattern entry, as done by
the map at the top of analyzeRisk (missing fields default to custom /
medium / a fixed message; a bare string entry becomes the pattern itself). -/
def resolveCustom : CustomPattern → RiskRule
| CustomPattern.str s =>
  { pattern := Pat.str s, category := "custom", severity := "medium",
    message := "Custom risk pattern" }
| CustomPattern.obj p c sv m =>
  { pattern := resolvePattern p, category := c.getD ("custom"),
    severity := sv.getD ("medium"), message := m.getD ("Custom risk pattern") }

/-- RiskFinding record pushed into result.files for a matched file. -/
structure RiskFile where
  filename : String
  status : String
  additions : Nat
  deletions : Nat
  severity : String
  categories : List String
  messages : List String
  patterns : List Pat
deriving DecidableEq

/-- Summary block attached to the risk report. -/
structure RiskSummary where
  totalRiskFiles : Nat
  highRisk : Nat
  mediumRisk : Nat
  lowRisk : Nat
  categories : List String
deriving DecidableEq

/-- Full report returned by analyzeRisk. -/
structure RiskResult where
  files : List RiskFile
  highRiskCount : Nat
  mediumRiskCount : Nat
  lowRiskCount : Nat
  byCategory : List (String × List String)
  details : List String
  summary : RiskSummary
deriving DecidableEq

/-- Options object accepted by analyzeRisk; both fields default to the
empty list as in the source. -/
structure RiskOptions where
  customPatterns : List CustomPattern := []
  ignorePatterns : List Pat := []
deriving DecidableEq

/-- Mutable state of the analyzeRisk loop: the fields of the result object
that the per-file iteration updates. -/
structure RiskAcc where
  files : List RiskFile
  highRiskCount : Nat
  mediumRiskCount : Nat
  lowRiskCount : Nat
  byCategory : List (String × List String)
deriving DecidableEq

/-- Spread of a JavaScript Set built from a list: de-duplication keeping
the first occurrence order. -/
def dedupFirst (xs : List String) : List String :=
  xs.foldl (fun acc x => if x ∈ acc then acc else acc ++ [x]) []

/-- Update of the byCategory object: append the filename to the list at an
existing key, or add the key at the end in insertion order. -/
def pushCategory (bc : List (String × List String)) (cat fn : String) :
    List (String × List String) :=
  if bc.any (fun e => e.1 == cat) then
    bc.map (fun e => if e.1 == cat then (e.1, e.2 ++ [fn]) else e)
  else bc ++ [(cat, [fn])]

/-- Body of the per-file loop of analyzeRisk: skip ignored files, collect
the matching rules, and for a matched file push a finding, bump the counter
of its highest severity, and index it by category. -/
def riskStep (patterns : List RiskRule) (ignorePatterns : List Pat)
    (acc : RiskAcc) (file : ChangedFile) : RiskAcc :=
  if ignorePatterns.any (fun p => minimatch file.filename p) then acc
  else
    let matchedPatterns := patterns.filter (fun p => minimatch file.filename p.pattern)
    if matchedPatterns.length > 0 then
      let severity := getHighestSeverity matchedPatterns
      let categories := dedupFirst (matchedPatterns.map (fun p => p.category))
      let riskFile : RiskFile :=
        { filename := file.filename, status := file.status,
          additions := file.additions, deletions := file.deletions,
          severity := severity, categories := categories,
          messages := matchedPatterns.map (fun p => p.message),
          patterns := matchedPatterns.map (fun p => p.pattern) }
      let counts :=
        if severity = "high" then
          (acc.highRiskCount + 1, acc.mediumRiskCount, acc.lowRiskCount)
        else if severity = "medium" then
          (acc.highRiskCount, acc.mediumRiskCount + 1, acc.lowRiskCount)
        else
          (acc.highRiskCount, acc.mediumRiskCount, acc.lowRiskCount + 1)
      { files := acc.files ++ [riskFile],
        highRiskCount := counts.1,
        mediumRiskCount := counts.2.1,
        lowRiskCount := counts.2.2,
        byCategory := categories.foldl
          (fun bc cat => pushCategory bc cat file.filename) acc.byCategory }
    else acc

/-- Combined rule list used by analyzeRisk: the module-level defaults
followed by the normalised custom patterns. -/
def riskPatterns (defaults : List RiskRule) (options : RiskOptions) : List RiskRule :=
  defaults ++ options.customPatterns.map resolveCustom

/-- Translation of analyzeRisk, parameterised by the module-level default
rule table it reads: per-file loop, then the human-readable detail lines,
then the summary block. -/
def analyzeRiskFrom (defaults : List RiskRule) (files : List ChangedFile)
    (options : RiskOptions) : RiskResult :=
  let patterns := riskPatterns defaults options
  let acc := files.foldl (riskStep patterns options.ignorePatterns)
    { files := [], highRiskCount := 0, mediumRiskCount := 0, lowRiskCount := 0,
      byCategory := [] }
  let details :=
    (if acc.highRiskCount > 0 then
      ["ğŸš¨ " ++ toString acc.highRiskCount ++ " high-risk file(s) require careful review"]
     else []) ++
    (if acc.mediumRiskCount > 0 then
      ["âš ï¸ " ++ toString acc.mediumRiskCount ++ " medium-risk file(s) detected"]
     else []) ++
    (if acc.lowRiskCount > 0 then
      ["â„¹ï¸ " ++ toString acc.lowRiskCount ++ " low-risk file(s) noted"]
     else []) ++
    acc.byCategory.map (fun e =>
      getCategoryIcon e.1 ++ " " ++ e.1 ++ ": " ++ toString e.2.length ++ " file(s)")
  { files := acc.files,
    highRiskCount := acc.highRiskCount,
    mediumRiskCount := acc.mediumRiskCount,
    lowRiskCount := acc.lowRiskCount,
    byCategory := acc.byCategory,
    details := details,
    summary :=
      { totalRiskFiles := acc.files.length,
        highRisk := acc.highRiskCount,
        mediumRisk := acc.mediumRiskCount,
        lowRisk := acc.lowRiskCount,
        categories := acc.byCategory.map (fun e => e.1) } }

/-- Entry point analyzeRisk with the module-level default rule table. -/
def analyzeRisk (files : List ChangedFile) (options : RiskOptions) : RiskResult :=
  analyzeRiskFrom DEFAULT_RISK_PATTERNS files options

/-- Split of a character list at newline characters, with the semantics of
the JavaScript split on a newline separator (an empty input gives one empty
piece, a trailing newline gives a trailing empty piece). -/
def splitLines (s : List Char) : List (List Char) :=
  splitOnChar '\n' s

/-- Whitespace trim from both ends, modelling the JavaScript trim. -/
def trimChars (l : List Char) : List Char :=
  ((l.dropWhile Char.isWhitespace).reverse.dropWhile Char.isWhitespace).reverse

/-- Characters of the file-separator header marker used by parseDiff. -/
def markerChars : List Char := ("diff --git").data

/-- Grouping of the lines of a diff at the lines that start with the
file-separator marker (the multiline regex anchors the marker at a line
start); the marker itself is consumed. -/
def diffGitGroups : List (List Char) → List (List Char) → List (List (List Char)) →
    List (List (List Char))
| [], cur, groups => (cur.reverse :: groups).reverse
| line :: rest, cur, groups =>
  if markerChars.isPrefixOf line then
    diffGitGroups rest [line.drop markerChars.length] (cur.reverse :: groups)
  else diffGitGroups rest (line :: cur) groups

/-- Reassembly of the split pieces: every piece except the last keeps the
newline that preceded the following marker; a piece with no lines (the
leading piece when the text starts with the marker) is empty. -/
def groupsToParts : List (List (List Char)) → List (List Char)
| [] => []
| [g] => [List.intercalate ['\n'] g]
| g :: rest =>
  (if g.isEmpty then [] else List.intercalate ['\n'] g ++ ['\n']) :: groupsToParts rest

/-- Split of the raw diff text on line-anchored file-separator markers, as
done by the split call at the top of parseDiff. -/
def splitDiffGit (s : List Char) : List (List Char) :=
  groupsToParts (diffGitGroups (splitLines s) [] [])

/-- Lazy capture of the filename regex of parseDiff: after the literal a
and slash, take the shortest non-empty run of non-newline characters that
is followed by a space, the literal b and a slash. -/
def lazyCap : List Char → Option (List Char)
| [] => none
| c :: rest =>
  if c = '\n' ∨ c = '\r' then none
  else if [' ', 'b', '/'].isPrefixOf rest then some [c]
  else (lazyCap rest).map (fun cap => c :: cap)

/-- Scan of a diff section for the leftmost match of the filename regex of
parseDiff, returning the captured path. -/
def findA : List Char → Option (List Char)
| [] => none
| 'a' :: '/' :: rest =>
  (match lazyCap rest with
   | some cap => some cap
   | none => findA ('/' :: rest))
| _ :: rest => findA rest

/-- In-place update of a string-keyed JavaScript object modelled as an
association list: an existing key keeps its position and gets the new
value, a new key is appended in insertion order. -/
def objInsert (m : List (String × String)) (k v : String) : List (String × String) :=
  if m.any (fun e => e.1 == k) then m.map (fun e => if e.1 == k then (k, v) else e)
  else m ++ [(k, v)]

/-- Diff text input of parseDiff: a string, an absent (undefined) value, or
some other non-string value. -/
inductive DiffInput
| str (s : String)
| undef
| nonstring
deriving DecidableEq

/-- Loop of parseDiff over the split sections: skip whitespace-only
sections, skip sections whose filename regex does not match, and otherwise
store the added lines (lines starting with a plus that are not the
new-file marker line, with the plus stripped, joined by newlines) under the
captured path. -/
def parseDiffLoop : List (List Char) → List (String × String) → List (String × String)
| [], files => files
| part :: rest, files =>
  if (trimChars part).isEmpty then parseDiffLoop rest files
  else
    match findA part with
    | none => parseDiffLoop rest files
    | some fileMatch =>
      let addedLines := List.intercalate ['\n']
        (((splitLines part).filter (fun line =>
            ['+'].isPrefixOf line && !(['+', '+', '+'].isPrefixOf line))).map
          (fun line => line.drop 1))
      parseDiffLoop rest (objInsert files (String.mk fileMatch) (String.mk addedLines))

/-- Translation of parseDiff: an absent, non-string, or empty (falsy) diff
gives the empty map, otherwise the text is split on file-separator headers
and each parseable section contributes its added lines. -/
def parseDiff : DiffInput → List (String × String)
| DiffInput.undef => []
| DiffInput.nonstring => []
| DiffInput.str s => if s = "" then [] else parseDiffLoop (splitDiffGit s.data) []

/-- Word character of the JavaScript word-boundary assertion. -/
def isWordChar (c : Char) : Bool := c.isAlpha || c.isDigit || c == '_'

/-- Word-character test on an optional character, where the absence of a
character (string edge) counts as a non-word position. -/
def isWordOpt : Option Char → Bool
| none => false
| some c => isWordChar c

/-- Word-boundary assertion between two adjacent positions. -/
def boundaryOk (a b : Option Char) : Bool := isWordOpt a != isWordOpt b

/-- Attempt of the control-flow token alternation at one position: the
alternatives are tried in source order, and an alternative succeeds when it
is a prefix of the remaining text and the word-boundary assertions hold on
both of its sides. -/
def tryAlts (alts : List (List Char)) (prev : Option Char) (s : List Char) :
    Option (List Char × List Char) :=
  match alts with
  | [] => none
  | t :: ts =>
    if boundaryOk prev s.head? && t.isPrefixOf s &&
        boundaryOk t.getLast? (s.drop t.length).head? then
      some (t, s.drop t.length)
    else tryAlts ts prev s

/-- Scan for the global match count of a boundary-delimited token
alternation: advance by the token on a match and by one character
otherwise.  The fuel argument only bounds the number of scan steps, which
is at most the length of the text. -/
def countTokensGo (alts : List (List Char)) : Nat → Option Char → List Char → Nat
| 0, _, _ => 0
| _, _, [] => 0
| fuel + 1, prev, c :: rest =>
  match tryAlts alts prev (c :: rest) with
  | some (t, rest') => 1 + countTokensGo alts fuel t.getLast? rest'
  | none => countTokensGo alts fuel (some c) rest

/-- Number of non-overlapping matches of the boundary-delimited token
alternation in a text, as computed by the JavaScript global match. -/
def jsCountMatches (alts : List (List Char)) (s : List Char) : Nat :=
  countTokensGo alts s.length none s

/-- Token alternation of the C-like / JavaScript control-flow pattern, in
source order. -/
def CONTROL_FLOW_JS : List (List Char) :=
  [("if").data, ("else").data, ("for").data, ("while").data, ("do").data,
   ("switch").data, ("case").data, ("catch").data, ("&&").data, ("||").data,
   ("?").data]

/-- Token alternation of the Python control-flow pattern. -/
def CONTROL_FLOW_PY : List (List Char) :=
  [("if").data, ("elif").data, ("else").data, ("for").data, ("while").data,
   ("try").data, ("except").data, ("and").data, ("or").data]

/-- Token alternation of the Java control-flow pattern. -/
def CONTROL_FLOW_JAVA : List (List Char) :=
  [("if").data, ("else").data, ("for").data, ("while").data, ("do").data,
   ("switch").data, ("case").data, ("catch").data, ("&&").data, ("||").data,
   ("?").data]

/-- Token alternation of the Go control-flow pattern. -/
def CONTROL_FLOW_GO : List (List Char) :=
  [("if").data, ("else").data, ("for").data, ("switch").data, ("case").data,
   ("select").data]

/-- Token alternation of the Ruby control-flow pattern. -/
def CONTROL_FLOW_RB : List (List Char) :=
  [("if").data, ("elsif").data, ("else").data, ("unless").data, ("case").data,
   ("when").data, ("while").data, ("until").data, ("for").data, ("rescue").data]

/-- Lookup in the CONTROL_FLOW_PATTERNS table. -/
def CONTROL_FLOW_PATTERNS (lang : String) : Option (List (List Char)) :=
  if lang = "js" then some CONTROL_FLOW_JS
  else if lang = "py" then some CONTROL_FLOW_PY
  else if lang = "java" then some CONTROL_FLOW_JAVA
  else if lang = "go" then some CONTROL_FLOW_GO
  else if lang = "rb" then some CONTROL_FLOW_RB
  else none

/-- Characters of the basename of a path (the part after the last slash). -/
def basenameChars (l : List Char) : List Char :=
  (l.reverse.takeWhile (fun c => !(c == '/'))).reverse

/-- Extension of a path in the manner of the Node extname helper: the part
of the basename from its last dot, empty when there is no dot or when the
only dot is the leading character of a hidden file. -/
def extnameChars (l : List Char) : List Char :=
  let b := basenameChars l
  let revAfter := b.reverse.takeWhile (fun c => !(c == '.'))
  if revAfter.length = b.length then []
  else if revAfter.length + 1 = b.length then []
  else '.' :: revAfter.reverse

/-- Normalised extension used for language dispatch: lowercased, with the
leading dot removed (the replace of the first dot occurrence). -/
def extOf (filename : String) : String :=
  match (extnameChars filename.data).map Char.toLower with
  | '.' :: r => String.mk r
  | r => String.mk r

/-- Lookup in the langMap extension table. -/
def langMap (ext : String) : Option String :=
  if ext = "js" then some ("js")
  else if ext = "jsx" then some ("js")
  else if ext = "ts" then some ("js")
  else if ext = "tsx" then some ("js")
  else if ext = "py" then some ("py")
  else if ext = "java" then some ("java")
  else if ext = "go" then some ("go")
  else if ext = "rb" then some ("rb")
  else none

/-- Language key selected for a filename, with the JavaScript default. -/
def selectedLang (filename : String) : String := (langMap (extOf filename)).getD ("js")

/-- Control-flow token pattern selected for a filename, with the JavaScript
pattern as default. -/
def selectedPattern (filename : String) : List (List Char) :=
  (CONTROL_FLOW_PATTERNS (selectedLang filename)).getD CONTROL_FLOW_JS

/-- Test of the trailing-colon regex on a line (a colon followed only by
trailing whitespace). -/
def colonEndMatch (l : List Char) : Bool :=
  (l.reverse.dropWhile Char.isWhitespace).head? == some ':'

/-- Test of the Python dedent-keyword regex (the line starts with return,
pass, break or continue). -/
def pyDedentMatch (l : List Char) : Bool :=
  ("return").data.isPrefixOf l || ("pass").data.isPrefixOf l ||
  ("break").data.isPrefixOf l || ("continue").data.isPrefixOf l

/-- Complexity thresholds record of complexity.js. -/
structure Thresholds where
  maxFileLines : Nat
  maxFunctionLines : Nat
  maxNestingDepth : Nat
  maxLineLength : Nat
  maxCyclomaticComplexity : Nat
  largeAdditions : Nat
deriving DecidableEq

/-- THRESHOLDS constant of complexity.js. -/
def THRESHOLDS : Thresholds :=
  { maxFileLines := 500, maxFunctionLines := 50, maxNestingDepth := 4,
    maxLineLength := 150, maxCyclomaticComplexity := 10, largeAdditions := 300 }

/-- Per-line update of the nesting estimate: a line with an opening brace
or a trailing colon increments the running depth and updates the maximum, a
line with a closing brace (or a Python dedent keyword) decrements the depth
clamped at zero (natural subtraction models the clamp). -/
def nestingStep (lang : String) (st : Nat × Nat) (line : List Char) : Nat × Nat :=
  let trimmed := trimChars line
  let up := trimmed.contains (Char.ofNat 123) || colonEndMatch trimmed
  let current1 := if up then st.2 + 1 else st.2
  let max1 := if up then Nat.max st.1 current1 else st.1
  let down := trimmed.contains (Char.ofNat 125) ||
    (lang == "py" && pyDedentMatch trimmed)
  let current2 := if down then current1 - 1 else current1
  (max1, current2)

/-- ComplexityEstimate record returned by analyzeFileComplexity. -/
structure ComplexityEstimate where
  complexity : Nat
  maxNesting : Nat
  longLines : Nat
deriving DecidableEq

/-- Translation of analyzeFileComplexity, parameterised by the threshold
table it reads: control-flow token count plus one, nesting estimate, and
count of overlong lines. -/
def analyzeFileComplexityFrom (th : Thresholds) (filename content : String) :
    ComplexityEstimate :=
  let lang := selectedLang filename
  let pattern := selectedPattern filename
  let complexity := jsCountMatches pattern content.data + 1
  let lines := splitLines content.data
  let nest := lines.foldl (nestingStep lang) (0, 0)
  let longLines := (lines.filter (fun line => th.maxLineLength < line.length)).length
  { complexity := complexity, maxNesting := nest.1, longLines := longLines }

/-- Entry point analyzeFileComplexity with the module-level thresholds. -/
def analyzeFileComplexity (filename content : String) : ComplexityEstimate :=
  analyzeFileComplexityFrom THRESHOLDS filename content

/-- Small regular-expression language covering the code-smell patterns of
complexity.js: literal characters (case-sensitive and case-insensitive),
character classes with optional negation, word and whitespace character
classes, sequencing, ordered alternation, and the greedy star, plus and
option quantifiers. -/
inductive RE
| eps
| ch (c : Char)
| chi (c : Char)
| cls (neg : Bool) (cs : List Char)
| wordc
| wsc
| seq (a b : RE)
| alt (a b : RE)
| star (r : RE)
| plus (r : RE)
| opt (r : RE)

/-- Backtracking matcher: the list of suffixes remaining after a match of
the expression at the start of the text, in the priority order of the
JavaScript backtracking engine (greedy quantifiers first, left alternative
first).  The fuel bounds the unfolding depth and is chosen large enough for
every pattern in the smell catalogue. -/
def reMatchSet : Nat → RE → List Char → List (List Char)
| 0, _, _ => []
| _ + 1, RE.eps, s => [s]
| _ + 1, RE.ch _, [] => []
| _ + 1, RE.ch c, x :: s => if x == c then [s] else []
| _ + 1, RE.chi _, [] => []
| _ + 1, RE.chi c, x :: s => if x.toLower == c.toLower then [s] else []
| _ + 1, RE.cls _ _, [] => []
| _ + 1, RE.cls neg cs, x :: s => if cs.contains x != neg then [s] else []
| _ + 1, RE.wordc, [] => []
| _ + 1, RE.wordc, x :: s => if isWordChar x then [s] else []
| _ + 1, RE.wsc, [] => []
| _ + 1, RE.wsc, x :: s => if x.isWhitespace then [s] else []
| fuel + 1, RE.seq a b, s =>
  (reMatchSet fuel a s).flatMap (fun s1 => reMatchSet fuel b s1)
| fuel + 1, RE.alt a b, s => reMatchSet fuel a s ++ reMatchSet fuel b s
| fuel + 1, RE.star r, s =>
  ((reMatchSet fuel r s).flatMap (fun s1 => reMatchSet fuel (RE.star r) s1)) ++ [s]
| fuel + 1, RE.plus r, s =>
  (reMatchSet fuel r s).flatMap (fun s1 => reMatchSet fuel (RE.star r) s1)
| fuel + 1, RE.opt r, s => reMatchSet fuel r s ++ [s]

/-- First (highest-priority) remainder of a match of the expression at the
start of the text, or none when there is no match there. -/
def reFirstEnd (r : RE) (s : List Char) : Option (List Char) :=
  (reMatchSet ((s.length + 1) * 64) r s).head?

/-- Count of the global, non-overlapping, leftmost matches of an
expression, as computed by the JavaScript global match: on a match the scan
resumes after it (one character further for an empty match), otherwise the
scan advances one character. -/
def reCountGo (r : RE) : Nat → List Char → Nat
| 0, _ => 0
| fuel + 1, s =>
  match reFirstEnd r s with
  | some rest =>
    if rest.length == s.length then
      match s with
      | [] => 1
      | _ :: t => 1 + reCountGo r fuel t
    else 1 + reCountGo r fuel rest
  | none =>
    match s with
    | [] => 0
    | _ :: t => reCountGo r fuel t

/-- Number of matches of an expression in a text. -/
def reCount (r : RE) (s : List Char) : Nat := reCountGo r (s.length + 1) s

/-- Sequencing of the characters of a literal string. -/
def reStr (s : String) : RE :=
  s.data.foldr (fun c acc => RE.seq (RE.ch c) acc) RE.eps

/-- Sequencing of the characters of a case-insensitive literal string. -/
def reStrI (s : String) : RE :=
  s.data.foldr (fun c acc => RE.seq (RE.chi c) acc) RE.eps

/-- Ordered alternation of a non-empty list of expressions. -/
def reAlts : List RE → RE
| [] => RE.eps
| [r] => r
| r :: rest => RE.alt r (reAlts rest)

/-- Quote characters used by the hardcoded-secret patterns (single and
double quote). -/
def quoteChars : List Char := [Char.ofNat 39, Char.ofNat 34]

/-- Tail of the hardcoded-secret patterns: optional whitespace, an equals
sign, optional whitespace, then a quoted non-empty run of non-quote
characters. -/
def reSecretTail : RE :=
  RE.seq (RE.star RE.wsc) (RE.seq (RE.ch '=') (RE.seq (RE.star RE.wsc)
    (RE.seq (RE.cls false quoteChars)
      (RE.seq (RE.plus (RE.cls true quoteChars)) (RE.cls false quoteChars)))))

/-- Code-smell catalogue entry: pattern, type and message. -/
structure SmellPattern where
  pattern : RE
  type : String
  message : String

/-- CODE_SMELL_PATTERNS catalogue of complexity.js, in source order. -/
def CODE_SMELL_PATTERNS : List SmellPattern := [
  { pattern := reAlts [reStrI ("TODO"), reStrI ("FIXME"), reStrI ("HACK"), reStrI ("XXX")],
    type := "todo", message := "Contains TODO/FIXME comments" },
  { pattern := RE.seq (reStr ("console."))
      (reAlts [reStr ("log"), reStr ("debug"), reStr ("info"), reStr ("warn"), reStr ("error")]),
    type := "debug", message := "Contains console statements" },
  { pattern := RE.seq (reStr ("debugger")) (RE.opt (RE.ch ';')),
    type := "debug", message := "Contains debugger statement" },
  { pattern := RE.seq (reStr ("print")) (RE.seq (RE.star RE.wsc) (RE.ch '(')),
    type := "debug", message := "Contains print statements" },
  { pattern := RE.seq (RE.ch '.') (RE.seq (reStr ("only")) (RE.seq (RE.star RE.wsc) (RE.ch '('))),
    type := "test", message := "Contains .only() in tests (will skip other tests)" },
  { pattern := reAlts [reStr ("eslint-disable"), reStr ("@ts-ignore"),
      reStr ("@ts-nocheck"), reStr ("noqa")],
    type := "lint", message := "Contains lint disable comments" },
  { pattern := RE.seq (reStrI ("password")) reSecretTail,
    type := "security", message := "Possible hardcoded password" },
  { pattern := RE.seq (reStrI ("api")) (RE.seq (RE.opt (RE.cls false ['_', '-']))
      (RE.seq (reStrI ("key")) reSecretTail)),
    type := "security", message := "Possible hardcoded API key" },
  { pattern := RE.seq (RE.plus RE.wordc) (RE.seq (RE.ch '.') (RE.seq (reStr ("forEach"))
      (RE.seq (RE.ch '(') (RE.seq (RE.plus (RE.cls true [')'])) (RE.seq (RE.ch ')')
        (RE.seq (RE.star RE.wsc) (RE.seq (RE.ch (Char.ofNat 123))
          (RE.seq (RE.plus (RE.cls true [Char.ofNat 125])) (reStr ("await")))))))))),
    type := "async", message := "Async operation in forEach (use for...of instead)" }
]

/-- Code-smell hit for one catalogue entry (before the filename is
attached): type, match count, message. -/
structure SmellHit where
  type : String
  count : Nat
  message : String
deriving DecidableEq

/-- Translation of detectCodeSmells: one hit per catalogue entry with at
least one match, carrying the match count. -/
def detectCodeSmells (content : List Char) : List SmellHit :=
  CODE_SMELL_PATTERNS.foldl
    (fun smells sp =>
      let n := reCount sp.pattern content
      if 0 < n then
        smells ++ [{ type := sp.type, count := n, message := sp.message }]
      else smells)
    []

/-- Extension list of isCodeFile. -/
def codeExtensions : List String :=
  [".js", ".jsx", ".ts", ".tsx", ".py", ".java", ".kt", ".go",
   ".rb", ".rs", ".c", ".cpp", ".h", ".cs", ".php", ".swift"]

/-- Translation of isCodeFile: the lowercased extension is in the code
extension list. -/
def isCodeFile (filename : String) : Bool :=
  codeExtensions.contains (String.mk ((extnameChars filename.data).map Char.toLower))

/-- Translation of getSmellIcon. -/
def getSmellIcon (t : String) : String :=
  if t = "todo" then "📝"
  else if t = "debug" then "🐛"
  else if t = "test" then "🧪"
  else if t = "lint" then "🔇"
  else if t = "security" then "🔐"
  else if t = "async" then "⏳"
  else "👃"

/-- Warning record of the complexity report. -/
structure Warning where
  type : String
  severity : String
  filename : String
  message : String
deriving DecidableEq

/-- Entry of the largeFiles list. -/
structure LargeFileEntry where
  filename : String
  additions : Nat
  deletions : Nat
  message : String
deriving DecidableEq

/-- Entry of the complexFiles list. -/
structure ComplexFileEntry where
  filename : String
  complexity : Nat
  message : String
deriving DecidableEq

/-- Entry of the codeSmells list (a smell hit with the filename spread in). -/
structure CodeSmellEntry where
  filename : String
  type : String
  count : Nat
  message : String
deriving DecidableEq

/-- LargestFile record of the stats block. -/
structure LargestFile where
  filename : String
  additions : Nat
deriving DecidableEq

/-- Stats block of the complexity report; the initial null largestFile is
modelled by none. -/
structure ComplexityStats where
  totalAdditions : Nat
  totalDeletions : Nat
  largestFile : Option LargestFile
  averageFileSize : Nat
deriving DecidableEq

/-- Summary block of the complexity report. -/
structure ComplexitySummary where
  totalWarnings : Nat
  largeFiles : Nat
  complexFiles : Nat
  codeSmells : Nat
  totalAdditions : Nat
  totalDeletions : Nat
deriving DecidableEq

/-- Full report returned by analyzeComplexity. -/
structure ComplexityResult where
  warnings : List Warning
  largeFiles : List LargeFileEntry
  complexFiles : List ComplexFileEntry
  codeSmells : List CodeSmellEntry
  stats : ComplexityStats
  details : List String
  summary : ComplexitySummary
deriving DecidableEq

/-- Options object accepted by analyzeComplexity. -/
structure ComplexityOptions where
  ignorePatterns : List Pat := []
deriving DecidableEq

/-- Mutable state of the analyzeComplexity loop: the fields of the result
object that the per-file iteration updates. -/
structure ComplexityAcc where
  warnings : List Warning
  largeFiles : List LargeFileEntry
  complexFiles : List ComplexFileEntry
  codeSmells : List CodeSmellEntry
  totalAdditions : Nat
  totalDeletions : Nat
deriving DecidableEq

/-- Accumulation of the addition and deletion totals for an analyzed file
(the two running-total statements at the top of the loop body). -/
def complexityTotals (acc : ComplexityAcc) (file : ChangedFile) : ComplexityAcc :=
  { acc with totalAdditions := acc.totalAdditions + file.additions,
             totalDeletions := acc.totalDeletions + file.deletions }

/-- Large-addition check of the loop body: past the threshold the file is
recorded under largeFiles and a size warning of severity medium is pushed. -/
def complexityLarge (th : Thresholds) (file : ChangedFile) (acc : ComplexityAcc) :
    ComplexityAcc :=
  if th.largeAdditions < file.additions then
    { acc with
      largeFiles := acc.largeFiles ++
        [{ filename := file.filename, additions := file.additions,
           deletions := file.deletions,
           message := "Large file change: +" ++ toString file.additions ++ " lines" }],
      warnings := acc.warnings ++
        [{ type := "size", severity := "medium", filename := file.filename,
           message := "Adding " ++ toString file.additions ++
             " lines to single file. Consider breaking into smaller changes." }] }
  else acc

/-- Complexity check of the loop body: past the threshold the file is
recorded under complexFiles and a complexity warning of severity high is
pushed. -/
def complexityComplexWarn (th : Thresholds) (file : ChangedFile)
    (cr : ComplexityEstimate) (acc : ComplexityAcc) : ComplexityAcc :=
  if th.maxCyclomaticComplexity < cr.complexity then
    { acc with
      complexFiles := acc.complexFiles ++
        [{ filename := file.filename, complexity := cr.complexity,
           message := "High cyclomatic complexity: " ++ toString cr.complexity }],
      warnings := acc.warnings ++
        [{ type := "complexity", severity := "high", filename := file.filename,
           message := "Estimated cyclomatic complexity (" ++ toString cr.complexity ++
             ") exceeds threshold (" ++ toString th.maxCyclomaticComplexity ++ ")" }] }
  else acc

/-- Nesting check of the loop body: past the threshold a nesting warning of
severity medium is pushed. -/
def complexityNestingWarn (th : Thresholds) (file : ChangedFile)
    (cr : ComplexityEstimate) (acc : ComplexityAcc) : ComplexityAcc :=
  if th.maxNestingDepth < cr.maxNesting then
    { acc with warnings := acc.warnings ++
        [{ type := "nesting", severity := "medium", filename := file.filename,
           message := "Deep nesting detected (" ++ toString cr.maxNesting ++
             " levels). Consider refactoring." }] }
  else acc

/-- Smell recording of the loop body: every detected smell is pushed with
the filename spread in. -/
def complexitySmellPush (file : ChangedFile) (fileContent : String)
    (acc : ComplexityAcc) : ComplexityAcc :=
  { acc with codeSmells := acc.codeSmells ++
      (detectCodeSmells fileContent.data).map (fun sm =>
        ({ filename := file.filename, type := sm.type, count := sm.count,
           message := sm.message } : CodeSmellEntry)) }

/-- Long-line check of the loop body: a positive count pushes a formatting
warning of severity low. -/
def complexityLongWarn (th : Thresholds) (file : ChangedFile)
    (cr : ComplexityEstimate) (acc : ComplexityAcc) : ComplexityAcc :=
  if 0 < cr.longLines then
    { acc with warnings := acc.warnings ++
        [{ type := "formatting", severity := "low", filename := file.filename,
           message := toString cr.longLines ++ " line(s) exceed " ++
             toString th.maxLineLength ++ " characters" }] }
  else acc

/-- Content-dependent part of the loop body: run the complexity estimate
once and apply the complexity, nesting, smell and long-line checks in
source order. -/
def complexityAnalyzeContent (th : Thresholds) (file : ChangedFile)
    (fileContent : String) (acc : ComplexityAcc) : ComplexityAcc :=
  let cr := analyzeFileComplexityFrom th file.filename fileContent
  complexityLongWarn th file cr
    (complexitySmellPush file fileContent
      (complexityNestingWarn th file cr
        (complexityComplexWarn th file cr acc)))

/-- Body of the per-file loop of analyzeComplexity: skip ignored and
non-code files, accumulate addition and deletion totals, flag large
additions, and when the diff map has a non-empty (truthy) entry for the
file run the content-dependent checks. -/
def complexityStep (th : Thresholds) (ignorePatterns : List Pat)
    (diffContent : List (String × String)) (acc : ComplexityAcc)
    (file : ChangedFile) : ComplexityAcc :=
  if ignorePatterns.any (fun p => minimatch file.filename p) then acc
  else if !isCodeFile file.filename then acc
  else
    let acc2 := complexityLarge th file (complexityTotals acc file)
    match List.lookup file.filename diffContent with
    | none => acc2
    | some fileContent =>
      if fileContent = "" then acc2
      else complexityAnalyzeContent th file fileContent acc2

/-- Rounding of the average, modelling the Math.round of the exact quotient
of two non-negative integers (round half up). -/
def jsRound (a n : Nat) : Nat := (2 * a + n) / (2 * n)

/-- Translation of analyzeComplexity, parameterised by the module-level
threshold table it reads: parse the diff, run the per-file loop, compute
the aggregate stats over the full input list, and produce the detail lines
and summary. -/
def analyzeComplexityFrom (th : Thresholds) (files : List ChangedFile)
    (diff : DiffInput) (options : ComplexityOptions) : ComplexityResult :=
  let diffContent := parseDiff diff
  let acc := files.foldl (complexityStep th options.ignorePatterns diffContent)
    { warnings := [], largeFiles := [], complexFiles := [], codeSmells := [],
      totalAdditions := 0, totalDeletions := 0 }
  let stats : ComplexityStats :=
    match files with
    | [] =>
      { totalAdditions := acc.totalAdditions, totalDeletions := acc.totalDeletions,
        largestFile := none, averageFileSize := 0 }
    | f0 :: _ =>
      let largest := files.foldl (fun mx f => if mx.additions < f.additions then f else mx) f0
      { totalAdditions := acc.totalAdditions, totalDeletions := acc.totalDeletions,
        largestFile := some { filename := largest.filename, additions := largest.additions },
        averageFileSize := jsRound acc.totalAdditions files.length }
  let smellTypeCounts := acc.codeSmells.foldl
    (fun bt sm =>
      if bt.any (fun e => e.1 == sm.type) then
        bt.map (fun e => if e.1 == sm.type then (e.1, e.2 + 1) else e)
      else bt ++ [(sm.type, 1)])
    ([] : List (String × Nat))
  let details :=
    (if 0 < acc.largeFiles.length then
      ["📏 " ++ toString acc.largeFiles.length ++ " file(s) with large changes (>" ++
        toString th.largeAdditions ++ " lines)"]
     else []) ++
    (if 0 < acc.complexFiles.length then
      ["🔀 " ++ toString acc.complexFiles.length ++ " file(s) with high complexity"]
     else []) ++
    (if 0 < acc.codeSmells.length then
      smellTypeCounts.map (fun e =>
        getSmellIcon e.1 ++ " " ++ toString e.2 ++ " " ++ e.1 ++ " code smell(s) detected")
     else []) ++
    (if acc.warnings.length = 0 ∧ acc.codeSmells.length = 0 then
      ["✅ No significant complexity issues detected"]
     else [])
  let summary : ComplexitySummary :=
    { totalWarnings := acc.warnings.length, largeFiles := acc.largeFiles.length,
      complexFiles := acc.complexFiles.length, codeSmells := acc.codeSmells.length,
      totalAdditions := acc.totalAdditions, totalDeletions := acc.totalDeletions }
  { warnings := acc.warnings, largeFiles := acc.largeFiles,
    complexFiles := acc.complexFiles, codeSmells := acc.codeSmells,
    stats := stats, details := details, summary := summary }

/-- Entry point analyzeComplexity with the module-level thresholds. -/
def analyzeComplexity (files : List ChangedFile) (diff : DiffInput)
    (options : ComplexityOptions) : ComplexityResult :=
  analyzeComplexityFrom THRESHOLDS files diff options

/-- Module-level constant bindings read by the two analyzers; both source
modules declare their tables with const and never write them.  This record
is the explicit state threaded through the stateful wrappers below. -/
structure ModuleState where
  defaultRiskPatterns : List RiskRule
  thresholds : Thresholds
deriving DecidableEq

/-- Stateful presentation of analyzeRisk: the analyzer reads the
module-level rule table from the state and leaves the state unchanged. -/
def analyzeRiskSt (st : ModuleState) (files : List ChangedFile)
    (options : RiskOptions) : RiskResult × ModuleState :=
  (analyzeRiskFrom st.defaultRiskPatterns files options, st)

/-- Stateful presentation of analyzeComplexity: the analyzer reads the
module-level thresholds from the state and leaves the state unchanged. -/
def analyzeComplexitySt (st : ModuleState) (files : List ChangedFile)
    (diff : DiffInput) (options : ComplexityOptions) :
    ComplexityResult × ModuleState :=
  (analyzeComplexityFrom st.thresholds files diff options, st)

/-- Specification-side reading of one diff section: the path captured by
the filename pattern of a section that is not whitespace-only.  The capture
is the path written after the marker a-slash in the header (the old-file
path). -/
def sectionHeaderPath (part : List Char) : Option (List Char) :=
  if (trimChars part).isEmpty then none else findA part

/-- Specification-side reading of the added text of one diff section: the
lines beginning with a plus but not with three pluses, each with the
leading plus stripped, joined by newlines. -/
def sectionAddedText (part : List Char) : List Char :=
  List.intercalate ['\n']
    (((splitLines part).filter (fun line =>
        ['+'].isPrefixOf line && !(['+', '+', '+'].isPrefixOf line))).map
      (fun line => line.drop 1))

/-- Specification-side diff map: each section with a parseable header
contributes the pair of its captured path and its added text, sections with
unparseable headers are skipped, and the pairs are stored with JavaScript
object update semantics. -/
def sectionsBuild (parts : List (List Char)) : List (String × String) :=
  (parts.filterMap (fun part =>
    (sectionHeaderPath part).map
      (fun fn => (String.mk fn, String.mk (sectionAddedText part))))).foldl
    (fun files e => objInsert files e.1 e.2) []

/-- Specification-side list of analyzed files of the aggregator: the input
files that are neither ignored nor non-code. -/
def analyzedFiles (files : List ChangedFile) (ignorePatterns : List Pat) :
    List ChangedFile :=
  files.filter (fun f =>
    !(ignorePatterns.any (fun p => minimatch f.filename p)) && isCodeFile f.filename)

/-- Specification-side sum of the additions of a file list. -/
def sumAdditions (files : List ChangedFile) : Nat :=
  files.foldl (fun t f => t + f.additions) 0

/-- Specification-side largest file by additions over a file list, with the
first of equally large files winning. -/
def largestByAdditions : List ChangedFile → Option LargestFile
| [] => none
| f0 :: rest =>
  let m := (f0 :: rest).foldl (fun mx f => if mx.additions < f.additions then f else mx) f0
  some { filename := m.filename, additions := m.additions }

/-- Numeric rank of a severity string (unrecognised strings get rank zero,
below every recognised rank). -/
def sevRank (s : String) : Nat := (severityOrder s).getD 0

/-- Severity string of a rank, the inverse of the rank assignment on the
three recognised severities. -/
def rankToSev (n : Nat) : String :=
  if n = 3 then "high" else if n = 2 then "medium" else "low"

/-- Specification-side rank fold: the maximum severity rank over a rule
list, starting from a base rank. -/
def rankFold (b : Nat) (l : List RiskRule) : Nat :=
  l.foldl (fun m r => Nat.max m (sevRank r.severity)) b

theorem sevRank_le_three (s : String) : sevRank s ≤ 3 := by
  unfold sevRank severityOrder
  split
  · simp
  · split
    · simp
    · split <;> simp

theorem rankToSev_mem (n : Nat) :
    rankToSev n = "low" ∨ rankToSev n = "medium" ∨ rankToSev n = "high" := by
  unfold rankToSev
  split
  · tauto
  · split <;> tauto

theorem sevRank_rankToSev (n : Nat) (h1 : 1 ≤ n) (h3 : n ≤ 3) :
    sevRank (rankToSev n) = n := by
  interval_cases n <;> rfl

theorem rankToSev_sevRank (s : String)
    (hs : s = "high" ∨ s = "medium" ∨ s = "low") :
    rankToSev (sevRank s) = s := by
  rcases hs with h | h | h <;> subst h <;> rfl

theorem sevRank_pos_of_mem (s : String)
    (hs : s = "high" ∨ s = "medium" ∨ s = "low") : 1 ≤ sevRank s := by
  rcases hs with h | h | h <;> subst h <;> decide

theorem severityOrder_of_mem (s : String)
    (hs : s = "low" ∨ s = "medium" ∨ s = "high") :
    severityOrder s = some (sevRank s) := by
  rcases hs with h | h | h <;> subst h <;> rfl

theorem sevFoldStep_eq (h : String) (r : RiskRule)
    (hh : h = "low" ∨ h = "medium" ∨ h = "high") :
    sevFoldStep h r = rankToSev (Nat.max (sevRank h) (sevRank r.severity)) := by
  by_cases e1 : r.severity = "high"
  · rcases hh with hh | hh | hh <;>
      simp [sevFoldStep, hh, e1, severityOrder, jsGt, sevRank, rankToSev]
  · by_cases e2 : r.severity = "medium"
    · rcases hh with hh | hh | hh <;>
        simp [sevFoldStep, hh, e2, severityOrder, jsGt, sevRank, rankToSev]
    · by_cases e3 : r.severity = "low"
      · rcases hh with hh | hh | hh <;>
          simp [sevFoldStep, hh, e3, severityOrder, jsGt, sevRank, rankToSev]
      · rcases hh with hh | hh | hh <;>
          simp [sevFoldStep, hh, severityOrder, e1, e2, e3, jsGt, sevRank, rankToSev]

theorem ghs_foldl_eq (l : List RiskRule) :
    ∀ (h : String), (h = "low" ∨ h = "medium" ∨ h = "high") →
    l.foldl sevFoldStep h = rankToSev (rankFold (sevRank h) l) := by
  induction l with
  | nil =>
    intro h hh
    rcases hh with hh | hh | hh <;> subst hh <;> rfl
  | cons r l ih =>
    intro h hh
    have hstep := sevFoldStep_eq h r hh
    have hh3 : sevRank h ≤ 3 := sevRank_le_three h
    have hh1 : 1 ≤ sevRank h := by
      rcases hh with e | e | e <;> subst e <;> decide
    have hr3 : sevRank r.severity ≤ 3 := sevRank_le_three r.severity
    have hmax1 : 1 ≤ Nat.max (sevRank h) (sevRank r.severity) :=
      Nat.le_trans hh1 (Nat.le_max_left _ _)
    have hmax3 : Nat.max (sevRank h) (sevRank r.severity) ≤ 3 :=
      Nat.max_le.mpr ⟨hh3, hr3⟩
    have hmem := rankToSev_mem (Nat.max (sevRank h) (sevRank r.severity))
    calc (r :: l).foldl sevFoldStep h = l.foldl sevFoldStep (sevFoldStep h r) := by
          simp only [List.foldl_cons]
    _ = l.foldl sevFoldStep (rankToSev (Nat.max (sevRank h) (sevRank r.severity))) := by
          rw [hstep]
    _ = rankToSev (rankFold (sevRank (rankToSev (Nat.max (sevRank h) (sevRank r.severity)))) l) :=
          ih _ hmem
    _ = rankToSev (rankFold (Nat.max (sevRank h) (sevRank r.severity)) l) := by
          rw [sevRank_rankToSev _ hmax1 hmax3]
    _ = rankToSev (rankFold (sevRank h) (r :: l)) := rfl

theorem getHighestSeverity_eq_rank (l : List RiskRule) :
    getHighestSeverity l = rankToSev (rankFold 1 l) := by
  have := ghs_foldl_eq l ("low") (Or.inl rfl)
  simpa [getHighestSeverity, sevRank, severityOrder] using this

theorem rankFold_perm {l l' : List RiskRule} (p : l.Perm l') :
    ∀ b : Nat, rankFold b l = rankFold b l' := by
  induction p with
  | nil => intro b; rfl
  | cons x _ ih =>
    intro b
    simp only [rankFold, List.foldl_cons] at *
    exact ih _
  | swap x y l =>
    intro b
    simp only [rankFold, List.foldl_cons]
    have hmr : Nat.max (Nat.max b (sevRank y.severity)) (sevRank x.severity)
        = Nat.max (Nat.max b (sevRank x.severity)) (sevRank y.severity) :=
      sup_right_comm b (sevRank y.severity) (sevRank x.severity)
    rw [hmr]
  | trans _ _ ih1 ih2 =>
    intro b
    rw [ih1 b, ih2 b]

theorem rankFold_init_le (l : List RiskRule) : ∀ b : Nat, b ≤ rankFold b l := by
  induction l with
  | nil => intro b; exact Nat.le_refl b
  | cons r l ih =>
    intro b
    have h1 : b ≤ Nat.max b (sevRank r.severity) := Nat.le_max_left _ _
    exact Nat.le_trans h1 (ih _)

theorem rankFold_mem_le (l : List RiskRule) :
    ∀ (b : Nat) (r : RiskRule), r ∈ l → sevRank r.severity ≤ rankFold b l := by
  induction l with
  | nil => intro b r hr; cases hr
  | cons x l ih =>
    intro b r hr
    rcases List.mem_cons.mp hr with h | h
    · subst h
      have h1 : sevRank r.severity ≤ Nat.max b (sevRank r.severity) := Nat.le_max_right _ _
      exact Nat.le_trans h1 (rankFold_init_le l _)
    · exact ih _ r h

theorem rankFold_le_bound (l : List RiskRule) :
    ∀ b : Nat, b ≤ 3 → rankFold b l ≤ 3 := by
  induction l with
  | nil => intro b hb; exact hb
  | cons r l ih =>
    intro b hb
    have h3 := sevRank_le_three r.severity
    exact ih _ (Nat.max_le.mpr ⟨hb, h3⟩)

theorem rankFold_attained (l : List RiskRule) :
    ∀ b : Nat, rankFold b l = b ∨ ∃ r ∈ l, rankFold b l = sevRank r.severity := by
  induction l with
  | nil => intro b; exact Or.inl rfl
  | cons x l ih =>
    intro b
    rcases ih (Nat.max b (sevRank x.severity)) with h | ⟨r, hr, he⟩
    · rcases max_choice b (sevRank x.severity) with hm | hm
      · exact Or.inl (by simpa [rankFold, hm] using h)
      · exact Or.inr ⟨x, List.mem_cons_self x l, by simpa [rankFold, hm] using h⟩
    · exact Or.inr ⟨r, List.mem_cons_of_mem x hr, by simpa [rankFold] using he⟩

theorem riskStep_ignored (ps : List RiskRule) (ign : List Pat) (acc : RiskAcc)
    (f : ChangedFile) (hig : ign.any (fun p => minimatch f.filename p) = true) :
    riskStep ps ign acc f = acc := by
  unfold riskStep
  rw [hig]
  simp

theorem riskStep_unmatched (ps : List RiskRule) (ign : List Pat) (acc : RiskAcc)
    (f : ChangedFile) (hig : ign.any (fun p => minimatch f.filename p) = false)
    (hm : ps.filter (fun p => minimatch f.filename p.pattern) = []) :
    riskStep ps ign acc f = acc := by
  unfold riskStep
  rw [hig, hm]
  simp

theorem riskStep_push (ps : List RiskRule) (ign : List Pat) (acc : RiskAcc)
    (f : ChangedFile) (hig : ign.any (fun p => minimatch f.filename p) = false)
    (hm : ps.filter (fun p => minimatch f.filename p.pattern) ≠ []) :
    riskStep ps ign acc f =
      { files := acc.files ++
          [{ filename := f.filename, status := f.status, additions := f.additions,
             deletions := f.deletions,
             severity := getHighestSeverity (ps.filter (fun p => minimatch f.filename p.pattern)),
             categories := dedupFirst ((ps.filter (fun p => minimatch f.filename p.pattern)).map (fun p => p.category)),
             messages := (ps.filter (fun p => minimatch f.filename p.pattern)).map (fun p => p.message),
             patterns := (ps.filter (fun p => minimatch f.filename p.pattern)).map (fun p => p.pattern) }],
        highRiskCount := acc.highRiskCount +
          (if getHighestSeverity (ps.filter (fun p => minimatch f.filename p.pattern)) = "high" then 1 else 0),
        mediumRiskCount := acc.mediumRiskCount +
          (if ¬getHighestSeverity (ps.filter (fun p => minimatch f.filename p.pattern)) = "high" ∧
              getHighestSeverity (ps.filter (fun p => minimatch f.filename p.pattern)) = "medium" then 1 else 0),
        lowRiskCount := acc.lowRiskCount +
          (if ¬getHighestSeverity (ps.filter (fun p => minimatch f.filename p.pattern)) = "high" ∧
              ¬getHighestSeverity (ps.filter (fun p => minimatch f.filename p.pattern)) = "medium" then 1 else 0),
        byCategory := (dedupFirst ((ps.filter (fun p => minimatch f.filename p.pattern)).map (fun p => p.category))).foldl
          (fun bc cat => pushCategory bc cat f.filename) acc.byCategory } := by
  unfold riskStep
  rw [hig]
  simp only [Bool.false_eq_true, if_false]
  rw [if_pos (List.length_pos.mpr hm)]
  by_cases h1 : getHighestSeverity (ps.filter (fun p => minimatch f.filename p.pattern)) = "high"
  · simp [h1]
  · by_cases h2 : getHighestSeverity (ps.filter (fun p => minimatch f.filename p.pattern)) = "medium"
    · simp [h1, h2]
    · simp [h1, h2]

theorem ghs_mem_three (l : List RiskRule) :
    getHighestSeverity l = "low" ∨ getHighestSeverity l = "medium" ∨
      getHighestSeverity l = "high" := by
  rw [getHighestSeverity_eq_rank]
  exact rankToSev_mem _

theorem riskStep_counts (ps : List RiskRule) (ign : List Pat) (acc : RiskAcc)
    (f : ChangedFile)
    (h1 : acc.highRiskCount = (acc.files.filter (fun fd => fd.severity = "high")).length)
    (h2 : acc.mediumRiskCount = (acc.files.filter (fun fd => fd.severity = "medium")).length)
    (h3 : acc.lowRiskCount = (acc.files.filter (fun fd => fd.severity = "low")).length) :
    (riskStep ps ign acc f).highRiskCount
        = ((riskStep ps ign acc f).files.filter (fun fd => fd.severity = "high")).length
    ∧ (riskStep ps ign acc f).mediumRiskCount
        = ((riskStep ps ign acc f).files.filter (fun fd => fd.severity = "medium")).length
    ∧ (riskStep ps ign acc f).lowRiskCount
        = ((riskStep ps ign acc f).files.filter (fun fd => fd.severity = "low")).length := by
  by_cases hig : ign.any (fun p => minimatch f.filename p) = true
  · rw [riskStep_ignored ps ign acc f hig]
    exact ⟨h1, h2, h3⟩
  · have hig' : ign.any (fun p => minimatch f.filename p) = false :=
      Bool.eq_false_iff.mpr hig
    by_cases hm : ps.filter (fun p => minimatch f.filename p.pattern) = []
    · rw [riskStep_unmatched ps ign acc f hig' hm]
      exact ⟨h1, h2, h3⟩
    · rw [riskStep_push ps ign acc f hig' hm]
      rcases ghs_mem_three (ps.filter (fun p => minimatch f.filename p.pattern)) with hs | hs | hs <;>
        simp [List.filter_append, hs, h1, h2, h3]

theorem riskFold_counts (ps : List RiskRule) (ign : List Pat) (files : List ChangedFile) :
    ∀ acc : RiskAcc,
    acc.highRiskCount = (acc.files.filter (fun fd => fd.severity = "high")).length →
    acc.mediumRiskCount = (acc.files.filter (fun fd => fd.severity = "medium")).length →
    acc.lowRiskCount = (acc.files.filter (fun fd => fd.severity = "low")).length →
    (files.foldl (riskStep ps ign) acc).highRiskCount
        = (((files.foldl (riskStep ps ign) acc).files).filter (fun fd => fd.severity = "high")).length
    ∧ (files.foldl (riskStep ps ign) acc).mediumRiskCount
        = (((files.foldl (riskStep ps ign) acc).files).filter (fun fd => fd.severity = "medium")).length
    ∧ (files.foldl (riskStep ps ign) acc).lowRiskCount
        = (((files.foldl (riskStep ps ign) acc).files).filter (fun fd => fd.severity = "low")).length := by
  induction files with
  | nil => intro acc h1 h2 h3; exact ⟨h1, h2, h3⟩
  | cons f l ih =>
    intro acc h1 h2 h3
    simp only [List.foldl_cons]
    obtain ⟨g1, g2, g3⟩ := riskStep_counts ps ign acc f h1 h2 h3
    exact ih _ g1 g2 g3

theorem riskStep_sum (ps : List RiskRule) (ign : List Pat) (acc : RiskAcc) (f : ChangedFile)
    (h : acc.highRiskCount + acc.mediumRiskCount + acc.lowRiskCount = acc.files.length) :
    (riskStep ps ign acc f).highRiskCount + (riskStep ps ign acc f).mediumRiskCount +
      (riskStep ps ign acc f).lowRiskCount = (riskStep ps ign acc f).files.length := by
  by_cases hig : ign.any (fun p => minimatch f.filename p) = true
  · rw [riskStep_ignored ps ign acc f hig]; exact h
  · have hig' : ign.any (fun p => minimatch f.filename p) = false :=
      Bool.eq_false_iff.mpr hig
    by_cases hm : ps.filter (fun p => minimatch f.filename p.pattern) = []
    · rw [riskStep_unmatched ps ign acc f hig' hm]; exact h
    · rw [riskStep_push ps ign acc f hig' hm]
      rcases ghs_mem_three (ps.filter (fun p => minimatch f.filename p.pattern)) with hs | hs | hs <;>
        simp [hs, h] <;> omega

theorem riskFold_sum (ps : List RiskRule) (ign : List Pat) (files : List ChangedFile) :
    ∀ acc : RiskAcc,
    acc.highRiskCount + acc.mediumRiskCount + acc.lowRiskCount = acc.files.length →
    (files.foldl (riskStep ps ign) acc).highRiskCount +
      (files.foldl (riskStep ps ign) acc).mediumRiskCount +
      (files.foldl (riskStep ps ign) acc).lowRiskCount
      = (files.foldl (riskStep ps ign) acc).files.length := by
  induction files with
  | nil => intro acc h; exact h
  | cons f l ih =>
    intro acc h
    simp only [List.foldl_cons]
    exact ih _ (riskStep_sum ps ign acc f h)

theorem riskStep_files (ps : List RiskRule) (ign : List Pat) (acc : RiskAcc)
    (f : ChangedFile) :
    (riskStep ps ign acc f).files = acc.files ∨
    ∃ fd : RiskFile, (riskStep ps ign acc f).files = acc.files ++ [fd] ∧
      fd.filename = f.filename ∧
      fd.severity = getHighestSeverity (ps.filter (fun p => minimatch f.filename p.pattern)) ∧
      ign.any (fun p => minimatch f.filename p) = false := by
  by_cases hig : ign.any (fun p => minimatch f.filename p) = true
  · exact Or.inl (by rw [riskStep_ignored ps ign acc f hig])
  · have hig' : ign.any (fun p => minimatch f.filename p) = false :=
      Bool.eq_false_iff.mpr hig
    by_cases hm : ps.filter (fun p => minimatch f.filename p.pattern) = []
    · exact Or.inl (by rw [riskStep_unmatched ps ign acc f hig' hm])
    · refine Or.inr
        ⟨{ filename := f.filename, status := f.status,
           additions := f.additions, deletions := f.deletions,
           severity := getHighestSeverity (ps.filter (fun p => minimatch f.filename p.pattern)),
           categories := dedupFirst ((ps.filter (fun p => minimatch f.filename p.pattern)).map (fun p => p.category)),
           messages := (ps.filter (fun p => minimatch f.filename p.pattern)).map (fun p => p.message),
           patterns := (ps.filter (fun p => minimatch f.filename p.pattern)).map (fun p => p.pattern) },
         ?_, rfl, rfl, hig'⟩
      rw [riskStep_push ps ign acc f hig' hm]

theorem riskFold_files_mono (ps : List RiskRule) (ign : List Pat) :
    ∀ (l : List ChangedFile) (acc : RiskAcc) (fd : RiskFile),
    fd ∈ acc.files → fd ∈ (l.foldl (riskStep ps ign) acc).files := by
  intro l
  induction l with
  | nil => intro acc fd h; exact h
  | cons f t ih =>
    intro acc fd h
    simp only [List.foldl_cons]
    apply ih
    rcases riskStep_files ps ign acc f with he | ⟨fd', he, _, _, _⟩
    · rw [he]; exact h
    · rw [he]; exact List.mem_append_left _ h

theorem riskFold_produce (ps : List RiskRule) (ign : List Pat) :
    ∀ (l : List ChangedFile) (acc : RiskAcc) (f : ChangedFile),
    f ∈ l → ign.any (fun p => minimatch f.filename p) = false →
    ps.filter (fun p => minimatch f.filename p.pattern) ≠ [] →
    ∃ fd ∈ (l.foldl (riskStep ps ign) acc).files, fd.filename = f.filename ∧
      fd.severity = getHighestSeverity (ps.filter (fun p => minimatch f.filename p.pattern)) := by
  intro l
  induction l with
  | nil => intro acc f h; cases h
  | cons g t ih =>
    intro acc f hf hig hm
    rcases List.mem_cons.mp hf with he | he
    · subst he
      simp only [List.foldl_cons]
      rw [riskStep_push ps ign acc f hig hm]
      refine ⟨{ filename := f.filename, status := f.status, additions := f.additions,
                deletions := f.deletions,
                severity := getHighestSeverity (ps.filter (fun p => minimatch f.filename p.pattern)),
                categories := dedupFirst ((ps.filter (fun p => minimatch f.filename p.pattern)).map (fun p => p.category)),
                messages := (ps.filter (fun p => minimatch f.filename p.pattern)).map (fun p => p.message),
                patterns := (ps.filter (fun p => minimatch f.filename p.pattern)).map (fun p => p.pattern) },
              ?_, rfl, rfl⟩
      exact riskFold_files_mono ps ign t _ _
        (List.mem_append_right _ (List.mem_singleton_self _))
    · simp only [List.foldl_cons]
      exact ih _ f he hig hm

theorem riskFold_sev (ps : List RiskRule) (ign : List Pat) :
    ∀ (l : List ChangedFile) (acc : RiskAcc),
    (∀ fd ∈ acc.files,
      fd.severity = getHighestSeverity (ps.filter (fun p => minimatch fd.filename p.pattern))) →
    ∀ fd ∈ (l.foldl (riskStep ps ign) acc).files,
      fd.severity = getHighestSeverity (ps.filter (fun p => minimatch fd.filename p.pattern)) := by
  intro l
  induction l with
  | nil => intro acc h; exact h
  | cons f t ih =>
    intro acc h
    simp only [List.foldl_cons]
    apply ih
    rcases riskStep_files ps ign acc f with he | ⟨fd', he, hn, hs, _⟩
    · rw [he]; exact h
    · rw [he]
      intro fd hfd
      rcases List.mem_append.mp hfd with hmem | hmem
      · exact h fd hmem
      · rw [List.mem_singleton.mp hmem]
        rw [hs, hn]

theorem riskFold_absent (ps : List RiskRule) (ign : List Pat) (g : ChangedFile)
    (hg : ign.any (fun p => minimatch g.filename p) = true) :
    ∀ (l : List ChangedFile) (acc : RiskAcc),
    (∀ fd ∈ acc.files, fd.filename ≠ g.filename) →
    ∀ fd ∈ (l.foldl (riskStep ps ign) acc).files, fd.filename ≠ g.filename := by
  intro l
  induction l with
  | nil => intro acc h; exact h
  | cons f t ih =>
    intro acc h
    simp only [List.foldl_cons]
    apply ih
    rcases riskStep_files ps ign acc f with he | ⟨fd', he, hn, _, hig⟩
    · rw [he]; exact h
    · rw [he]
      intro fd hfd
      rcases List.mem_append.mp hfd with hmem | hmem
      · exact h fd hmem
      · rw [List.mem_singleton.mp hmem, hn]
        intro hcon
        rw [hcon] at hig
        rw [hig] at hg
        cases hg

theorem riskFold_delete (ps : List RiskRule) (ign : List Pat) (f : ChangedFile)
    (hig : ign.any (fun p => minimatch f.filename p) = true)
    (l1 l2 : List ChangedFile) (acc : RiskAcc) :
    (l1 ++ f :: l2).foldl (riskStep ps ign) acc = (l1 ++ l2).foldl (riskStep ps ign) acc := by
  rw [List.foldl_append, List.foldl_append]
  simp only [List.foldl_cons]
  rw [riskStep_ignored ps ign _ f hig]

theorem minimatch_malformed (fn : String) (p : Pat) (h : malformedPat p = true) :
    minimatch fn p = false := by
  cases p with
  | nonstring => rfl
  | str s =>
    unfold malformedPat at h
    rw [Option.isNone_iff_eq_none] at h
    simp [minimatch, h]

theorem riskStep_congr (ps ps' : List RiskRule) (ign : List Pat)
    (h : ∀ fn : String, ps'.filter (fun p => minimatch fn p.pattern)
        = ps.filter (fun p => minimatch fn p.pattern)) :
    riskStep ps' ign = riskStep ps ign := by
  funext acc f
  unfold riskStep
  rw [h f.filename]

theorem ghs_all_unrecognized (l : List RiskRule)
    (h : ∀ r ∈ l, severityOrder r.severity = none) :
    getHighestSeverity l = "low" := by
  unfold getHighestSeverity
  have main : ∀ (l' : List RiskRule) (b : String),
      (∀ r ∈ l', severityOrder r.severity = none) → l'.foldl sevFoldStep b = b := by
    intro l'
    induction l' with
    | nil => intro b _; rfl
    | cons r t ih =>
      intro b hall
      have hr : severityOrder r.severity = none := hall r (List.mem_cons_self r t)
      have hstep : sevFoldStep b r = b := by
        unfold sevFoldStep
        rw [hr]
        simp [jsGt]
      simp only [List.foldl_cons, hstep]
      exact ih b (fun x hx => hall x (List.mem_cons_of_mem r hx))
  exact main l ("low") h

/-- Claim C2: the severity the Risk Classifier assigns to a matched file is the
maximum severity among its matched rules under the total order
high over medium over low, and getHighestSeverity is invariant under any
permutation of the rule list. -/
theorem severity_max_wins_perm_invariant :
    (∀ (l l' : List RiskRule), l.Perm l' → getHighestSeverity l = getHighestSeverity l')
    ∧ (∀ l : List RiskRule,
        (∀ r ∈ l, r.severity = "high" ∨ r.severity = "medium" ∨ r.severity = "low") →
        (∀ r ∈ l, sevRank r.severity ≤ sevRank (getHighestSeverity l))
        ∧ (l ≠ [] → ∃ r ∈ l, r.severity = getHighestSeverity l))
    ∧ (∀ (files : List ChangedFile) (options : RiskOptions),
        ∀ fd ∈ (analyzeRisk files options).files,
        fd.severity = getHighestSeverity ((riskPatterns DEFAULT_RISK_PATTERNS options).filter
          (fun p => minimatch fd.filename p.pattern))) := by
  refine ⟨?_, ?_, ?_⟩
  · intro l l' hp
    rw [getHighestSeverity_eq_rank, getHighestSeverity_eq_rank, rankFold_perm hp 1]
  · intro l hvalid
    have hfold1 : 1 ≤ rankFold 1 l := rankFold_init_le l 1
    have hfold3 : rankFold 1 l ≤ 3 := rankFold_le_bound l 1 (by decide)
    have hsev : sevRank (getHighestSeverity l) = rankFold 1 l := by
      rw [getHighestSeverity_eq_rank]
      exact sevRank_rankToSev _ hfold1 hfold3
    constructor
    · intro r hr
      rw [hsev]
      exact rankFold_mem_le l 1 r hr
    · intro hne
      rcases rankFold_attained l 1 with hat | ⟨r, hr, hat⟩
      · obtain ⟨r, hr⟩ := List.exists_mem_of_ne_nil l hne
        have h1 : sevRank r.severity ≤ 1 := by
          have := rankFold_mem_le l 1 r hr
          omega
        have h2 : 1 ≤ sevRank r.severity := by
          rcases hvalid r hr with e | e | e <;> rw [e] <;> decide
        have hlow : r.severity = "low" := by
          rcases hvalid r hr with e | e | e
          · rw [e] at h1; simp [sevRank, severityOrder] at h1
          · rw [e] at h1; simp [sevRank, severityOrder] at h1
          · exact e
        refine ⟨r, hr, ?_⟩
        rw [hlow, getHighestSeverity_eq_rank, hat]
        rfl
      · refine ⟨r, hr, ?_⟩
        rw [getHighestSeverity_eq_rank, hat]
        rcases hvalid r hr with e | e | e <;> rw [e] <;> rfl
  · intro files options fd hfd
    apply riskFold_sev (riskPatterns DEFAULT_RISK_PATTERNS options) options.ignorePatterns files
      { files := [], highRiskCount := 0, mediumRiskCount := 0, lowRiskCount := 0, byCategory := [] }
      (by intro x hx; cases hx)
    simpa [analyzeRisk, analyzeRiskFrom] using hfd

/-- Claim C3: for every file list, rule list and ignore-pattern list, the counts
of the risk report partition its findings: each counter equals the number
of findings of that severity, and the three counters sum to the length of
the files list of the report. -/
theorem risk_counts_partition (files : List ChangedFile) (options : RiskOptions) :
    (analyzeRisk files options).highRiskCount
      = ((analyzeRisk files options).files.filter (fun fd => fd.severity = "high")).length
    ∧ (analyzeRisk files options).mediumRiskCount
      = ((analyzeRisk files options).files.filter (fun fd => fd.severity = "medium")).length
    ∧ (analyzeRisk files options).lowRiskCount
      = ((analyzeRisk files options).files.filter (fun fd => fd.severity = "low")).length
    ∧ (analyzeRisk files options).highRiskCount + (analyzeRisk files options).mediumRiskCount
        + (analyzeRisk files options).lowRiskCount
      = (analyzeRisk files options).files.length := by
  have hc := riskFold_counts (riskPatterns DEFAULT_RISK_PATTERNS options)
    options.ignorePatterns files
    { files := [], highRiskCount := 0, mediumRiskCount := 0, lowRiskCount := 0,
      byCategory := [] } rfl rfl rfl
  have hs := riskFold_sum (riskPatterns DEFAULT_RISK_PATTERNS options)
    options.ignorePatterns files
    { files := [], highRiskCount := 0, mediumRiskCount := 0, lowRiskCount := 0,
      byCategory := [] } rfl
  refine ⟨?_, ?_, ?_, ?_⟩ <;>
    simpa [analyzeRisk, analyzeRiskFrom] using (by tauto : _)

/-- Claim C10: a matched file all of whose matched rules carry an unrecognised
severity string is assigned severity low by the Risk Classifier and is
counted in lowRiskCount, because an unrecognised severity never beats the
running maximum in getHighestSeverity. -/
theorem unrecognized_severity_falls_to_low :
    (∀ l : List RiskRule, (∀ r ∈ l, severityOrder r.severity = none) →
      getHighestSeverity l = "low")
    ∧ (∀ (files : List ChangedFile) (options : RiskOptions) (f : ChangedFile),
        f ∈ files →
        options.ignorePatterns.any (fun p => minimatch f.filename p) = false →
        (riskPatterns DEFAULT_RISK_PATTERNS options).filter
          (fun p => minimatch f.filename p.pattern) ≠ [] →
        (∀ r ∈ (riskPatterns DEFAULT_RISK_PATTERNS options).filter
          (fun p => minimatch f.filename p.pattern), severityOrder r.severity = none) →
        ∃ fd ∈ (analyzeRisk files options).files,
          fd.filename = f.filename ∧ fd.severity = "low")
    ∧ (∀ (files : List ChangedFile) (options : RiskOptions),
        (analyzeRisk files options).lowRiskCount
          = ((analyzeRisk files options).files.filter (fun fd => fd.severity = "low")).length) := by
  refine ⟨ghs_all_unrecognized, ?_, ?_⟩
  · intro files options f hm hig hne hall
    obtain ⟨fd, hfd, hn, hs⟩ := riskFold_produce (riskPatterns DEFAULT_RISK_PATTERNS options)
      options.ignorePatterns files
      { files := [], highRiskCount := 0, mediumRiskCount := 0, lowRiskCount := 0,
        byCategory := [] } f hm hig hne
    refine ⟨fd, ?_, hn, ?_⟩
    · simpa [analyzeRisk, analyzeRiskFrom] using hfd
    · rw [hs]
      exact ghs_all_unrecognized _ hall
  · intro files options
    have hc := riskFold_counts (riskPatterns DEFAULT_RISK_PATTERNS options)
      options.ignorePatterns files
      { files := [], highRiskCount := 0, mediumRiskCount := 0, lowRiskCount := 0,
        byCategory := [] } rfl rfl rfl
    simpa [analyzeRisk, analyzeRiskFrom] using hc.2.2

/-- Claim C5: glob matching is total and a malformed or non-string custom
pattern behaves as matching nothing, so appending a bad custom rule leaves
the whole risk report unchanged instead of aborting the classification. -/
theorem malformed_pattern_matches_nothing :
    (∀ (fn : String) (p : Pat), malformedPat p = true → minimatch fn p = false)
    ∧ (∀ (files : List ChangedFile) (options : RiskOptions) (bad : CustomPattern),
        malformedPat (resolveCustom bad).pattern = true →
        analyzeRisk files
          { customPatterns := options.customPatterns ++ [bad],
            ignorePatterns := options.ignorePatterns }
          = analyzeRisk files options) := by
  constructor
  · exact minimatch_malformed
  · intro files options bad hbad
    have hps : riskPatterns DEFAULT_RISK_PATTERNS
        { customPatterns := options.customPatterns ++ [bad],
          ignorePatterns := options.ignorePatterns }
        = riskPatterns DEFAULT_RISK_PATTERNS options ++ [resolveCustom bad] := by
      unfold riskPatterns
      simp [List.map_append]
    have hstep : riskStep (riskPatterns DEFAULT_RISK_PATTERNS options ++ [resolveCustom bad])
        options.ignorePatterns
        = riskStep (riskPatterns DEFAULT_RISK_PATTERNS options) options.ignorePatterns := by
      apply riskStep_congr
      intro fn
      rw [List.filter_append]
      simp [minimatch_malformed fn _ hbad]
    simp only [analyzeRisk, analyzeRiskFrom, hps, hstep]

theorem complexityStep_ignored (th : Thresholds) (ign : List Pat)
    (dc : List (String × String)) (acc : ComplexityAcc) (f : ChangedFile)
    (hig : ign.any (fun p => minimatch f.filename p) = true) :
    complexityStep th ign dc acc f = acc := by
  unfold complexityStep
  rw [hig]
  simp

theorem complexityStep_noncode (th : Thresholds) (ign : List Pat)
    (dc : List (String × String)) (acc : ComplexityAcc) (f : ChangedFile)
    (hig : ign.any (fun p => minimatch f.filename p) = false)
    (hc : isCodeFile f.filename = false) :
    complexityStep th ign dc acc f = acc := by
  unfold complexityStep
  rw [hig, hc]
  simp

theorem complexityStage_warnings (th : Thresholds) (file : ChangedFile)
    (fileContent : String) (cr : ComplexityEstimate) :
    (∀ acc : ComplexityAcc, ∃ ws : List Warning,
      (complexityLarge th file acc).warnings = acc.warnings ++ ws ∧
      ∀ w ∈ ws, w.filename = file.filename)
    ∧ (∀ acc : ComplexityAcc, ∃ ws : List Warning,
      (complexityComplexWarn th file cr acc).warnings = acc.warnings ++ ws ∧
      ∀ w ∈ ws, w.filename = file.filename)
    ∧ (∀ acc : ComplexityAcc, ∃ ws : List Warning,
      (complexityNestingWarn th file cr acc).warnings = acc.warnings ++ ws ∧
      ∀ w ∈ ws, w.filename = file.filename)
    ∧ (∀ acc : ComplexityAcc,
      (complexitySmellPush file fileContent acc).warnings = acc.warnings)
    ∧ (∀ acc : ComplexityAcc, ∃ ws : List Warning,
      (complexityLongWarn th file cr acc).warnings = acc.warnings ++ ws ∧
      ∀ w ∈ ws, w.filename = file.filename) := by
  refine ⟨?_, ?_, ?_, ?_, ?_⟩ <;> intro acc
  · unfold complexityLarge
    split
    · exact ⟨_, rfl, by intro w hw; rw [List.mem_singleton.mp hw]⟩
    · exact ⟨[], by simp, by intro w hw; cases hw⟩
  · unfold complexityComplexWarn
    split
    · exact ⟨_, rfl, by intro w hw; rw [List.mem_singleton.mp hw]⟩
    · exact ⟨[], by simp, by intro w hw; cases hw⟩
  · unfold complexityNestingWarn
    split
    · exact ⟨_, rfl, by intro w hw; rw [List.mem_singleton.mp hw]⟩
    · exact ⟨[], by simp, by intro w hw; cases hw⟩
  · rfl
  · unfold complexityLongWarn
    split
    · exact ⟨_, rfl, by intro w hw; rw [List.mem_singleton.mp hw]⟩
    · exact ⟨[], by simp, by intro w hw; cases hw⟩

theorem complexityStep_warnings (th : Thresholds) (ign : List Pat)
    (dc : List (String × String)) (acc : ComplexityAcc) (f : ChangedFile) :
    ∃ ws : List Warning, (complexityStep th ign dc acc f).warnings = acc.warnings ++ ws ∧
      ∀ w ∈ ws, w.filename = f.filename := by
  have compose : ∀ (a : ComplexityAcc) (g : ComplexityAcc → ComplexityAcc)
      (ws1 : List Warning),
      a.warnings = acc.warnings ++ ws1 → (∀ w ∈ ws1, w.filename = f.filename) →
      (∀ b : ComplexityAcc, ∃ ws : List Warning, (g b).warnings = b.warnings ++ ws ∧
        ∀ w ∈ ws, w.filename = f.filename) →
      ∃ ws : List Warning, (g a).warnings = acc.warnings ++ ws ∧
        ∀ w ∈ ws, w.filename = f.filename := by
    intro a g ws1 ha hws1 hg
    obtain ⟨ws2, hg2, hws2⟩ := hg a
    refine ⟨ws1 ++ ws2, ?_, ?_⟩
    · rw [hg2, ha, List.append_assoc]
    · intro w hw
      rcases List.mem_append.mp hw with h | h
      · exact hws1 w h
      · exact hws2 w h
  unfold complexityStep
  split
  · exact ⟨[], by simp, by intro w hw; cases hw⟩
  · split
    · exact ⟨[], by simp, by intro w hw; cases hw⟩
    · have h2 : ∃ ws : List Warning,
          (complexityLarge th f (complexityTotals acc f)).warnings = acc.warnings ++ ws ∧
          ∀ w ∈ ws, w.filename = f.filename := by
        have := ((complexityStage_warnings th f ("") ⟨0, 0, 0⟩).1) (complexityTotals acc f)
        obtain ⟨ws, hws, hall⟩ := this
        exact ⟨ws, by rw [hws]; rfl, hall⟩
      obtain ⟨ws2, hws2, hall2⟩ := h2
      split
      · exact ⟨ws2, hws2, hall2⟩
      · split
        · exact ⟨ws2, hws2, hall2⟩
        · rename_i fileContent _ _
          unfold complexityAnalyzeContent
          have st := complexityStage_warnings th f fileContent
            (analyzeFileComplexityFrom th f.filename fileContent)
          have s1 := compose _ _ _ hws2 hall2 st.2.1
          obtain ⟨ws3, hws3, hall3⟩ := s1
          have s2 := compose _ _ _ hws3 hall3 st.2.2.1
          obtain ⟨ws4, hws4, hall4⟩ := s2
          have s3 : (complexitySmellPush f fileContent
              (complexityNestingWarn th f (analyzeFileComplexityFrom th f.filename fileContent)
                (complexityComplexWarn th f (analyzeFileComplexityFrom th f.filename fileContent)
                  (complexityLarge th f (complexityTotals acc f))))).warnings
              = acc.warnings ++ ws4 := by
            rw [st.2.2.2.1, hws4]
          exact compose _ _ _ s3 hall4 st.2.2.2.2

theorem complexityFold_warn_mono (th : Thresholds) (ign : List Pat)
    (dc : List (String × String)) :
    ∀ (l : List ChangedFile) (acc : ComplexityAcc) (w : Warning),
    w ∈ acc.warnings → w ∈ (l.foldl (complexityStep th ign dc) acc).warnings := by
  intro l
  induction l with
  | nil => intro acc w h; exact h
  | cons f t ih =>
    intro acc w h
    simp only [List.foldl_cons]
    apply ih
    obtain ⟨ws, hws, _⟩ := complexityStep_warnings th ign dc acc f
    rw [hws]
    exact List.mem_append_left _ h

theorem complexityFold_absent (th : Thresholds) (ign : List Pat)
    (dc : List (String × String)) (g : ChangedFile)
    (hg : ign.any (fun p => minimatch g.filename p) = true) :
    ∀ (l : List ChangedFile) (acc : ComplexityAcc),
    (∀ w ∈ acc.warnings, w.filename ≠ g.filename) →
    ∀ w ∈ (l.foldl (complexityStep th ign dc) acc).warnings, w.filename ≠ g.filename := by
  intro l
  induction l with
  | nil => intro acc h; exact h
  | cons f t ih =>
    intro acc h
    simp only [List.foldl_cons]
    apply ih
    by_cases hig : ign.any (fun p => minimatch f.filename p) = true
    · rw [complexityStep_ignored th ign dc acc f hig]
      exact h
    · have hig' : ign.any (fun p => minimatch f.filename p) = false :=
        Bool.eq_false_iff.mpr hig
      obtain ⟨ws, hws, hall⟩ := complexityStep_warnings th ign dc acc f
      rw [hws]
      intro w hw
      rcases List.mem_append.mp hw with hmem | hmem
      · exact h w hmem
      · rw [hall w hmem]
        intro heq
        have hgt := hg
        rw [← heq] at hgt
        rw [hgt] at hig'
        cases hig'

theorem complexityStage_totals (th : Thresholds) (file : ChangedFile)
    (fileContent : String) (cr : ComplexityEstimate) :
    (∀ acc : ComplexityAcc, (complexityLarge th file acc).totalAdditions = acc.totalAdditions)
    ∧ (∀ acc : ComplexityAcc, (complexityComplexWarn th file cr acc).totalAdditions = acc.totalAdditions)
    ∧ (∀ acc : ComplexityAcc, (complexityNestingWarn th file cr acc).totalAdditions = acc.totalAdditions)
    ∧ (∀ acc : ComplexityAcc, (complexitySmellPush file fileContent acc).totalAdditions = acc.totalAdditions)
    ∧ (∀ acc : ComplexityAcc, (complexityLongWarn th file cr acc).totalAdditions = acc.totalAdditions) := by
  refine ⟨?_, ?_, ?_, ?_, ?_⟩ <;> intro acc
  · unfold complexityLarge; split <;> rfl
  · unfold complexityComplexWarn; split <;> rfl
  · unfold complexityNestingWarn; split <;> rfl
  · rfl
  · unfold complexityLongWarn; split <;> rfl

theorem complexityStep_totalAdditions (th : Thresholds) (ign : List Pat)
    (dc : List (String × String)) (acc : ComplexityAcc) (f : ChangedFile)
    (hig : ign.any (fun p => minimatch f.filename p) = false)
    (hc : isCodeFile f.filename = true) :
    (complexityStep th ign dc acc f).totalAdditions = acc.totalAdditions + f.additions := by
  have h2 : (complexityLarge th f (complexityTotals acc f)).totalAdditions
      = acc.totalAdditions + f.additions := by
    rw [(complexityStage_totals th f ("") ⟨0, 0, 0⟩).1]
    rfl
  unfold complexityStep
  rw [hig, hc]
  simp only [Bool.false_eq_true, if_false, Bool.not_true, reduceIte]
  split
  · exact h2
  · split
    · exact h2
    · rename_i fileContent _ _
      unfold complexityAnalyzeContent
      have st := complexityStage_totals th f fileContent
        (analyzeFileComplexityFrom th f.filename fileContent)
      rw [st.2.2.2.2, st.2.2.2.1, st.2.2.1, st.2.1]
      exact h2

theorem sumAdditions_cons (f : ChangedFile) (l : List ChangedFile) :
    sumAdditions (f :: l) = f.additions + sumAdditions l := by
  have shift : ∀ (t : List ChangedFile) (b : Nat),
      t.foldl (fun s g => s + g.additions) b = b + t.foldl (fun s g => s + g.additions) 0 := by
    intro t
    induction t with
    | nil => intro b; simp
    | cons x r ih =>
      intro b
      simp only [List.foldl_cons]
      rw [ih (b + x.additions), ih (0 + x.additions)]
      omega
  unfold sumAdditions
  simp only [List.foldl_cons]
  rw [shift]
  omega

theorem complexityFold_totals (th : Thresholds) (ign : List Pat)
    (dc : List (String × String)) :
    ∀ (l : List ChangedFile) (acc : ComplexityAcc),
    (l.foldl (complexityStep th ign dc) acc).totalAdditions
      = acc.totalAdditions + sumAdditions (analyzedFiles l ign) := by
  intro l
  induction l with
  | nil =>
    intro acc
    simp [analyzedFiles, sumAdditions]
  | cons f t ih =>
    intro acc
    simp only [List.foldl_cons]
    by_cases hig : ign.any (fun p => minimatch f.filename p) = true
    · rw [complexityStep_ignored th ign dc acc f hig, ih acc]
      have hpred : (!(ign.any (fun p => minimatch f.filename p)) && isCodeFile f.filename) = false := by
        rw [hig]; rfl
      unfold analyzedFiles
      rw [List.filter_cons_of_neg (by simpa [analyzedFiles] using hpred)]
    · have hig' : ign.any (fun p => minimatch f.filename p) = false :=
        Bool.eq_false_iff.mpr hig
      by_cases hc : isCodeFile f.filename = true
      · rw [ih _, complexityStep_totalAdditions th ign dc acc f hig' hc]
        have hpred : (!(ign.any (fun p => minimatch f.filename p)) && isCodeFile f.filename) = true := by
          rw [hig', hc]; rfl
        unfold analyzedFiles
        rw [List.filter_cons_of_pos (by simpa [analyzedFiles] using hpred)]
        rw [sumAdditions_cons]
        unfold analyzedFiles at *
        omega
      · have hc' : isCodeFile f.filename = false := Bool.eq_false_iff.mpr hc
        rw [complexityStep_noncode th ign dc acc f hig' hc', ih acc]
        have hpred : (!(ign.any (fun p => minimatch f.filename p)) && isCodeFile f.filename) = false := by
          rw [hig', hc']; rfl
        unfold analyzedFiles
        rw [List.filter_cons_of_neg (by simpa [analyzedFiles] using hpred)]

theorem complexityStep_produce (th : Thresholds) (ign : List Pat)
    (dc : List (String × String)) (acc : ComplexityAcc) (f : ChangedFile)
    (content : String)
    (hig : ign.any (fun p => minimatch f.filename p) = false)
    (hc : isCodeFile f.filename = true)
    (hl : List.lookup f.filename dc = some content)
    (hne : content ≠ "")
    (hcx : th.maxCyclomaticComplexity < (analyzeFileComplexityFrom th f.filename content).complexity) :
    ∃ w ∈ (complexityStep th ign dc acc f).warnings,
      w.type = "complexity" ∧ w.severity = "high" ∧ w.filename = f.filename := by
  unfold complexityStep
  rw [hig, hc, hl]
  simp only [Bool.false_eq_true, if_false, Bool.not_true, reduceIte]
  rw [if_neg hne]
  simp only [complexityAnalyzeContent]
  have st := complexityStage_warnings th f content
    (analyzeFileComplexityFrom th f.filename content)
  have hcw : ∃ w ∈ (complexityComplexWarn th f (analyzeFileComplexityFrom th f.filename content)
      (complexityLarge th f (complexityTotals acc f))).warnings,
      w.type = "complexity" ∧ w.severity = "high" ∧ w.filename = f.filename := by
    unfold complexityComplexWarn
    rw [if_pos hcx]
    exact ⟨_, List.mem_append_right _ (List.mem_singleton_self _), rfl, rfl, rfl⟩
  obtain ⟨w0, hw0, p1, p2, p3⟩ := hcw
  obtain ⟨ws3, hws3, _⟩ := st.2.2.1 (complexityComplexWarn th f
    (analyzeFileComplexityFrom th f.filename content)
    (complexityLarge th f (complexityTotals acc f)))
  obtain ⟨ws5, hws5, _⟩ := st.2.2.2.2 (complexitySmellPush f content
    (complexityNestingWarn th f (analyzeFileComplexityFrom th f.filename content)
      (complexityComplexWarn th f (analyzeFileComplexityFrom th f.filename content)
        (complexityLarge th f (complexityTotals acc f)))))
  refine ⟨w0, ?_, p1, p2, p3⟩
  rw [hws5, st.2.2.2.1, hws3]
  exact List.mem_append_left _ (List.mem_append_left _ hw0)

theorem complexityFold_produce (th : Thresholds) (ign : List Pat)
    (dc : List (String × String)) :
    ∀ (l : List ChangedFile) (acc : ComplexityAcc) (f : ChangedFile) (content : String),
    f ∈ l →
    ign.any (fun p => minimatch f.filename p) = false →
    isCodeFile f.filename = true →
    List.lookup f.filename dc = some content →
    content ≠ "" →
    th.maxCyclomaticComplexity < (analyzeFileComplexityFrom th f.filename content).complexity →
    ∃ w ∈ (l.foldl (complexityStep th ign dc) acc).warnings,
      w.type = "complexity" ∧ w.severity = "high" ∧ w.filename = f.filename := by
  intro l
  induction l with
  | nil => intro acc f content h; cases h
  | cons g t ih =>
    intro acc f content hf hig hc hl hne hcx
    rcases List.mem_cons.mp hf with he | he
    · subst he
      simp only [List.foldl_cons]
      obtain ⟨w, hw, p1, p2, p3⟩ :=
        complexityStep_produce th ign dc acc f content hig hc hl hne hcx
      exact ⟨w, complexityFold_warn_mono th ign dc t _ w hw, p1, p2, p3⟩
    · simp only [List.foldl_cons]
      exact ih _ f content he hig hc hl hne hcx

/-- Claim C1: a file whose added text contains exactly eleven non-overlapping
occurrences of the tokens of the selected language pattern gets complexity
twelve (eleven matches plus the base path), and since twelve exceeds the
threshold of ten the aggregator emits a complexity warning of severity
high for that file. -/
theorem eleven_matches_complexity_warning :
    ∀ (files : List ChangedFile) (diff : DiffInput) (options : ComplexityOptions)
      (f : ChangedFile) (content : String),
    f ∈ files →
    options.ignorePatterns.any (fun p => minimatch f.filename p) = false →
    isCodeFile f.filename = true →
    List.lookup f.filename (parseDiff diff) = some content →
    content ≠ "" →
    jsCountMatches (selectedPattern f.filename) content.data = 11 →
    (analyzeFileComplexity f.filename content).complexity = 12
    ∧ ∃ w ∈ (analyzeComplexity files diff options).warnings,
        w.type = "complexity" ∧ w.severity = "high" ∧ w.filename = f.filename := by
  intro files diff options f content hf hig hc hl hne h11
  have hcplx : (analyzeFileComplexityFrom THRESHOLDS f.filename content).complexity = 12 := by
    simp only [analyzeFileComplexityFrom]
    rw [h11]
  constructor
  · exact hcplx
  · have hcx : THRESHOLDS.maxCyclomaticComplexity
        < (analyzeFileComplexityFrom THRESHOLDS f.filename content).complexity := by
      rw [hcplx]
      decide
    have hp := complexityFold_produce THRESHOLDS options.ignorePatterns (parseDiff diff)
      files
      { warnings := [], largeFiles := [], complexFiles := [], codeSmells := [],
        totalAdditions := 0, totalDeletions := 0 }
      f content hf hig hc hl hne hcx
    obtain ⟨w, hw, p1, p2, p3⟩ := hp
    refine ⟨w, ?_, p1, p2, p3⟩
    simpa [analyzeComplexity, analyzeComplexityFrom] using hw

/-- Claim C4: a file matching an ignore pattern appears in neither report:
removing it from the input leaves the whole risk report unchanged, no risk
finding carries its filename, and no aggregator warning carries its
filename. -/
theorem ignored_file_absent :
    ∀ (l1 l2 : List ChangedFile) (f : ChangedFile) (ropts : RiskOptions)
      (diff : DiffInput) (copts : ComplexityOptions),
    ropts.ignorePatterns.any (fun p => minimatch f.filename p) = true →
    copts.ignorePatterns.any (fun p => minimatch f.filename p) = true →
    analyzeRisk (l1 ++ f :: l2) ropts = analyzeRisk (l1 ++ l2) ropts
    ∧ (∀ fd ∈ (analyzeRisk (l1 ++ f :: l2) ropts).files, fd.filename ≠ f.filename)
    ∧ (∀ w ∈ (analyzeComplexity (l1 ++ f :: l2) diff copts).warnings,
        w.filename ≠ f.filename) := by
  intro l1 l2 f ropts diff copts hig1 hig2
  refine ⟨?_, ?_, ?_⟩
  · simp only [analyzeRisk, analyzeRiskFrom]
    rw [riskFold_delete (riskPatterns DEFAULT_RISK_PATTERNS ropts) ropts.ignorePatterns f hig1]
  · intro fd hfd
    apply riskFold_absent (riskPatterns DEFAULT_RISK_PATTERNS ropts) ropts.ignorePatterns f hig1
      (l1 ++ f :: l2)
      { files := [], highRiskCount := 0, mediumRiskCount := 0, lowRiskCount := 0,
        byCategory := [] }
      (by intro x hx; cases hx) fd
    simpa [analyzeRisk, analyzeRiskFrom] using hfd
  · intro w hw
    apply complexityFold_absent THRESHOLDS copts.ignorePatterns (parseDiff diff) f hig2
      (l1 ++ f :: l2)
      { warnings := [], largeFiles := [], complexFiles := [], codeSmells := [],
        totalAdditions := 0, totalDeletions := 0 }
      (by intro x hx; cases hx) w
    simpa [analyzeComplexity, analyzeComplexityFrom] using hw

/-- Claim C8 (amended): the aggregate stats carry the addition total over the
analyzed (non-ignored code) files, but the average divides that total by
the length of the whole input list, and the largest file is computed over
the whole input list, not only over the analyzed files. -/
theorem complexity_stats_characterized :
    ∀ (files : List ChangedFile) (diff : DiffInput) (options : ComplexityOptions),
    files ≠ [] →
    (analyzeComplexity files diff options).stats.totalAdditions
      = sumAdditions (analyzedFiles files options.ignorePatterns)
    ∧ (analyzeComplexity files diff options).stats.averageFileSize
      = jsRound (sumAdditions (analyzedFiles files options.ignorePatterns)) files.length
    ∧ (analyzeComplexity files diff options).stats.largestFile = largestByAdditions files := by
  intro files diff options hne
  cases files with
  | nil => exact absurd rfl hne
  | cons f0 t =>
    have ht := complexityFold_totals THRESHOLDS options.ignorePatterns (parseDiff diff)
      (f0 :: t)
      { warnings := [], largeFiles := [], complexFiles := [], codeSmells := [],
        totalAdditions := 0, totalDeletions := 0 }
    refine ⟨?_, ?_, ?_⟩
    · simpa [analyzeComplexity, analyzeComplexityFrom] using ht
    · have h2 : (analyzeComplexity (f0 :: t) diff options).stats.averageFileSize
          = jsRound ((((f0 :: t).foldl (complexityStep THRESHOLDS options.ignorePatterns (parseDiff diff))
              { warnings := [], largeFiles := [], complexFiles := [], codeSmells := [],
                totalAdditions := 0, totalDeletions := 0 })).totalAdditions) (f0 :: t).length := by
        simp [analyzeComplexity, analyzeComplexityFrom]
      rw [h2, ht]
      simp
    · simp [analyzeComplexity, analyzeComplexityFrom, largestByAdditions]

/-- Claim C9: both analyzers are deterministic and stateless: they leave the
module-level state unchanged, and a second run from the state left by the
first run on the same inputs produces an identical report. -/
theorem analyzers_deterministic_stateless :
    ∀ (st : ModuleState) (files : List ChangedFile) (ropts : RiskOptions)
      (diff : DiffInput) (copts : ComplexityOptions),
    (analyzeRiskSt st files ropts).2 = st
    ∧ (analyzeRiskSt ((analyzeRiskSt st files ropts).2) files ropts).1
        = (analyzeRiskSt st files ropts).1
    ∧ (analyzeComplexitySt st files diff copts).2 = st
    ∧ (analyzeComplexitySt ((analyzeComplexitySt st files diff copts).2) files diff copts).1
        = (analyzeComplexitySt st files diff copts).1 := by
  intro st files ropts diff copts
  exact ⟨rfl, rfl, rfl, rfl⟩

/-- Claim C7: parseDiff returns the empty map on the empty string, on an absent
(undefined) input and on a non-string input, without raising an error. -/
theorem parseDiff_empty_inputs :
    parseDiff (DiffInput.str ("")) = [] ∧ parseDiff DiffInput.undef = []
      ∧ parseDiff DiffInput.nonstring = [] := by
  refine ⟨?_, rfl, rfl⟩
  simp [parseDiff]

theorem parseDiffLoop_eq_build :
    ∀ (parts : List (List Char)) (files : List (String × String)),
    parseDiffLoop parts files =
      (parts.filterMap (fun part => (sectionHeaderPath part).map
        (fun fn => (String.mk fn, String.mk (sectionAddedText part))))).foldl
        (fun m e => objInsert m e.1 e.2) files := by
  intro parts
  induction parts with
  | nil => intro files; rfl
  | cons part rest ih =>
    intro files
    unfold parseDiffLoop sectionHeaderPath
    by_cases hempty : (trimChars part).isEmpty = true
    · rw [if_pos hempty]
      simp only [List.filterMap_cons, hempty, if_true, Option.map_none']
      exact ih files
    · have hempty' : (trimChars part).isEmpty = false := Bool.eq_false_iff.mpr hempty
      rw [if_neg (by rw [hempty']; exact Bool.false_ne_true)]
      cases hfa : findA part with
      | none =>
        simp only [List.filterMap_cons, hempty', if_false, hfa, Option.map_none']
        exact ih files
      | some fn =>
        simp only [List.filterMap_cons, hempty', Bool.false_eq_true, if_false, hfa,
          Option.map_some', List.foldl_cons]
        rw [ih]
        rfl

/-- Claim C6 (amended): parseDiff on a non-empty string equals the per-section
construction: each section that is not whitespace-only and whose header
pattern matches contributes the captured path (the old-file a-side path,
which equals the new-file path except for renames) mapped to the lines
beginning with a plus but not three pluses, stripped of the plus and joined
by newlines; sections with unparseable headers contribute nothing while
the remaining sections still contribute. -/
theorem parseDiff_sections_characterized :
    ∀ s : String, parseDiff (DiffInput.str s) = sectionsBuild (splitDiffGit s.data) := by
  intro s
  by_cases hs : s = ""
  · subst hs
    decide
  · simp only [parseDiff]
    rw [if_neg hs]
    unfold sectionsBuild
    exact parseDiffLoop_eq_build (splitDiffGit s.data) []

/-- Claim C6 (counterexample): on a rename section the Diff Parser stores the added
lines under the old-file path captured after the a-marker, not under the
new-file path: the new-file path is absent from the returned map. -/
theorem parseDiff_rename_counterexample :
    List.lookup ("new.js")
      (parseDiff (DiffInput.str
        ("diff --git a/old.js b/new.js\n--- a/old.js\n+++ b/new.js\n@@ -1 +1 @@\n+x"))) = none
    ∧ List.lookup ("old.js")
      (parseDiff (DiffInput.str
        ("diff --git a/old.js b/new.js\n--- a/old.js\n+++ b/new.js\n@@ -1 +1 @@\n+x"))) = some ("x") := by
  constructor
  · rfl
  · rfl

/-- Claim C8 (counterexample): with an ignored-by-extension markdown file of 100
additions and an analyzed code file of 10 additions, the accumulated total
is 10 over 1 analyzed file, yet the reported average is 5 (the total
divided by both input files) instead of 10, and the reported largest file
is the non-analyzed markdown file. -/
theorem complexity_stats_counterexample :
    (analyzeComplexity ([⟨("big.md"), ("modified"), 100, 0⟩,
        ⟨("b.js"), ("modified"), 10, 0⟩] : List ChangedFile)
      (DiffInput.str ("")) {}).stats.totalAdditions = 10
    ∧ analyzedFiles ([⟨("big.md"), ("modified"), 100, 0⟩,
        ⟨("b.js"), ("modified"), 10, 0⟩] : List ChangedFile) []
      = ([⟨("b.js"), ("modified"), 10, 0⟩] : List ChangedFile)
    ∧ (analyzeComplexity ([⟨("big.md"), ("modified"), 100, 0⟩,
        ⟨("b.js"), ("modified"), 10, 0⟩] : List ChangedFile)
      (DiffInput.str ("")) {}).stats.averageFileSize = 5
    ∧ jsRound 10 1 = 10
    ∧ ¬((5 : Nat) = 10)
    ∧ (analyzeComplexity ([⟨("big.md"), ("modified"), 100, 0⟩,
        ⟨("b.js"), ("modified"), 10, 0⟩] : List ChangedFile)
      (DiffInput.str ("")) {}).stats.largestFile
      = some ⟨("big.md"), 100⟩
    ∧ isCodeFile ("big.md") = false := by
  decide

/-- Witness for C8: the amended characterization applied to the concrete
two-file input of the counterexample. -/
theorem complexity_stats_characterized_witness :
    (analyzeComplexity ([⟨("big.md"), ("modified"), 100, 0⟩,
        ⟨("b.js"), ("modified"), 10, 0⟩] : List ChangedFile)
      (DiffInput.str ("")) {}).stats.totalAdditions
      = sumAdditions (analyzedFiles ([⟨("big.md"), ("modified"), 100, 0⟩,
        ⟨("b.js"), ("modified"), 10, 0⟩] : List ChangedFile) ([] : List Pat))
    ∧ (analyzeComplexity ([⟨("big.md"), ("modified"), 100, 0⟩,
        ⟨("b.js"), ("modified"), 10, 0⟩] : List ChangedFile)
      (DiffInput.str ("")) {}).stats.averageFileSize
      = jsRound (sumAdditions (analyzedFiles ([⟨("big.md"), ("modified"), 100, 0⟩,
        ⟨("b.js"), ("modified"), 10, 0⟩] : List ChangedFile) ([] : List Pat))) 2
    ∧ (analyzeComplexity ([⟨("big.md"), ("modified"), 100, 0⟩,
        ⟨("b.js"), ("modified"), 10, 0⟩] : List ChangedFile)
      (DiffInput.str ("")) {}).stats.largestFile
      = largestByAdditions ([⟨("big.md"), ("modified"), 100, 0⟩,
        ⟨("b.js"), ("modified"), 10, 0⟩] : List ChangedFile) :=
  complexity_stats_characterized
    ([⟨("big.md"), ("modified"), 100, 0⟩, ⟨("b.js"), ("modified"), 10, 0⟩] : List ChangedFile)
    (DiffInput.str ("")) {} (by decide)

/-- Witness for C1: a JavaScript file whose diff adds a line with eleven
if tokens gets complexity twelve and a high complexity warning. -/
theorem eleven_matches_complexity_warning_witness :
    (analyzeFileComplexity ("a.js") ("if if if if if if if if if if if")).complexity = 12
    ∧ ∃ w ∈ (analyzeComplexity ([⟨("a.js"), ("modified"), 11, 0⟩] : List ChangedFile)
        (DiffInput.str ("diff --git a/a.js b/a.js\n+if if if if if if if if if if if"))
        {}).warnings,
        w.type = "complexity" ∧ w.severity = "high" ∧ w.filename = ("a.js") :=
  eleven_matches_complexity_warning
    ([⟨("a.js"), ("modified"), 11, 0⟩] : List ChangedFile)
    (DiffInput.str ("diff --git a/a.js b/a.js\n+if if if if if if if if if if if"))
    {} ⟨("a.js"), ("modified"), 11, 0⟩ ("if if if if if if if if if if if")
    (by decide) (by decide) (by decide) (by decide) (by decide) (by decide)

/-- Witness for C4: an ignored markdown file is deletable from the input
without changing the risk report. -/
theorem ignored_file_absent_witness :
    analyzeRisk (([] : List ChangedFile) ++ ⟨("a.md"), ("modified"), 1, 0⟩ ::
        ([⟨("b.js"), ("modified"), 1, 0⟩] : List ChangedFile))
      ⟨[], [Pat.str ("*.md")]⟩
      = analyzeRisk (([] : List ChangedFile) ++ ([⟨("b.js"), ("modified"), 1, 0⟩] : List ChangedFile))
      ⟨[], [Pat.str ("*.md")]⟩ :=
  (ignored_file_absent [] [⟨("b.js"), ("modified"), 1, 0⟩] ⟨("a.md"), ("modified"), 1, 0⟩
    ⟨[], [Pat.str ("*.md")]⟩ (DiffInput.str ("")) ⟨[Pat.str ("*.md")]⟩
    (by decide) (by decide)).1

/-- Witness for C5: an unclosed character class in a custom rule matches
nothing and appending that rule leaves the risk report unchanged. -/
theorem malformed_pattern_matches_nothing_witness :
    minimatch ("x.js") (Pat.str ("[ab")) = false
    ∧ analyzeRisk ([⟨("x.js"), ("added"), 1, 0⟩] : List ChangedFile)
        { customPatterns := [] ++ [CustomPattern.obj (some (Pat.str ("[ab"))) none (some ("high")) none],
          ignorePatterns := [] }
      = analyzeRisk ([⟨("x.js"), ("added"), 1, 0⟩] : List ChangedFile) {} :=
  ⟨malformed_pattern_matches_nothing.1 ("x.js") (Pat.str ("[ab")) (by decide),
   malformed_pattern_matches_nothing.2 ([⟨("x.js"), ("added"), 1, 0⟩] : List ChangedFile)
     {} (CustomPattern.obj (some (Pat.str ("[ab"))) none (some ("high")) none) (by decide)⟩

/-- Witness for C2: permutation invariance, maximality and attainment on a
concrete two-rule list, and the severity of the concrete finding for an
environment file equals the highest severity of its matched rules. -/
theorem severity_max_wins_perm_invariant_witness :
    getHighestSeverity
        [⟨Pat.str ("x"), ("c"), ("low"), ("m")⟩, ⟨Pat.str ("y"), ("d"), ("high"), ("n")⟩]
      = getHighestSeverity
        [⟨Pat.str ("y"), ("d"), ("high"), ("n")⟩, ⟨Pat.str ("x"), ("c"), ("low"), ("m")⟩]
    ∧ sevRank (⟨Pat.str ("x"), ("c"), ("low"), ("m")⟩ : RiskRule).severity
      ≤ sevRank (getHighestSeverity
        [⟨Pat.str ("x"), ("c"), ("low"), ("m")⟩, ⟨Pat.str ("y"), ("d"), ("high"), ("n")⟩])
    ∧ (∃ r ∈ [(⟨Pat.str ("x"), ("c"), ("low"), ("m")⟩ : RiskRule),
        ⟨Pat.str ("y"), ("d"), ("high"), ("n")⟩],
        r.severity = getHighestSeverity
          [⟨Pat.str ("x"), ("c"), ("low"), ("m")⟩, ⟨Pat.str ("y"), ("d"), ("high"), ("n")⟩])
    ∧ (⟨(".env.production"), ("added"), 1, 0, ("high"), [("security")],
        [("Environment configuration file")], [Pat.str ("**/.env*")]⟩ : RiskFile).severity
      = getHighestSeverity ((riskPatterns DEFAULT_RISK_PATTERNS {}).filter
          (fun p => minimatch (".env.production") p.pattern)) := by
  refine ⟨?_, ?_, ?_, ?_⟩
  · exact severity_max_wins_perm_invariant.1 _ _
      (List.Perm.swap (⟨Pat.str ("y"), ("d"), ("high"), ("n")⟩ : RiskRule)
        (⟨Pat.str ("x"), ("c"), ("low"), ("m")⟩ : RiskRule) [])
  · exact (severity_max_wins_perm_invariant.2.1 _ (by decide)).1 _ (by decide)
  · exact (severity_max_wins_perm_invariant.2.1 _ (by decide)).2 (by decide)
  · exact severity_max_wins_perm_invariant.2.2
      ([⟨(".env.production"), ("added"), 1, 0⟩] : List ChangedFile) {} _ (by decide)

/-- Witness for C10: a custom rule with severity critical matching a file
no default rule matches yields a finding of severity low, and the rank
fold on that rule list returns low. -/
theorem unrecognized_severity_falls_to_low_witness :
    getHighestSeverity [⟨Pat.str ("pay/**"), ("custom"), ("critical"), ("Custom risk pattern")⟩]
      = ("low")
    ∧ (∃ fd ∈ (analyzeRisk ([⟨("pay/x.js"), ("added"), 1, 0⟩] : List ChangedFile)
        ⟨[CustomPattern.obj (some (Pat.str ("pay/**"))) none (some ("critical")) none], []⟩).files,
        fd.filename = (⟨("pay/x.js"), ("added"), 1, 0⟩ : ChangedFile).filename
        ∧ fd.severity = ("low")) := by
  constructor
  · exact unrecognized_severity_falls_to_low.1 _ (by decide)
  · exact unrecognized_severity_falls_to_low.2.1
      ([⟨("pay/x.js"), ("added"), 1, 0⟩] : List ChangedFile)
      ⟨[CustomPattern.obj (some (Pat.str ("pay/**"))) none (some ("critical")) none], []⟩
      ⟨("pay/x.js"), ("added"), 1, 0⟩ (by decide) (by decide) (by decide) (by decide)
